import Mathlib

/-!
Verification development for the oc-sort repository (Rust).

The tracker's decision logic is shallowly embedded here.  The numeric type of
the Rust code is `f64`; we model it by an arbitrary linear ordered field `K`
with a floor structure (instantiated at `ℚ` for executable evaluations and at
`ℝ` where transcendental functions matter).  Functions of `f64` that have no
algebraic counterpart (`sqrt`, `acos`, the constant `π`) are passed as explicit
parameters, so that each theorem states exactly which of their properties it
uses.  A detection score is modelled as `Option K`, `none` standing for an IEEE
NaN (every comparison with a NaN is false, which is all the tracker observes
about scores).  Rust's `as i64` cast is modelled by `rustCastI64` (truncation
toward zero with saturation).  `u32`/`usize` counters are modelled by `ℕ`; the
only subtractions performed are `saturating_sub` (which is `Nat.sub`) and a
subtraction `age - time_step` that the ring invariant keeps non-negative.

The external crates `kfilter` (the Kalman filter state and its predict/update
steps) and `pathfinding` (the Hungarian solver `kuhn_munkres_min`) are not part
of the repository's sources; they are modelled from the spec as parameters
(`KF`, `kfPredict`, `kfUpdate`, `kfInit`, `kfState` and the solver `σ`), plus a
brute-force minimal-assignment function used to instantiate `σ` in concrete
evaluations.
-/

namespace OCS

/-- Rust's `as i64` conversion from `f64`: truncation toward zero, saturating
at the `i64` bounds.  (A NaN input converts to `0`; call sites that can receive
a NaN handle that case explicitly.) -/
def rustCastI64 {K : Type} [LinearOrderedField K] [FloorRing K] (x : K) : ℤ :=
  max (-(2 ^ 63)) (min (2 ^ 63 - 1) (if 0 ≤ x then ⌊x⌋ else ⌈x⌉))

/-- `IOU_MULTIPLIER` from `associate.rs`. -/
def iouMultiplier {K : Type} [LinearOrderedField K] : K := 10000

/-- `f64::EPSILON`, i.e. `2 ^ (-52)`, used in `BBox::to_observation_vector`. -/
def epsF64 {K : Type} [LinearOrderedField K] : K := 1 / 4503599627370496

/-- `BBox` from `bbox.rs`: axis-aligned box by corners. -/
structure BBox (K : Type) where
  x_1 : K
  y_1 : K
  x_2 : K
  y_2 : K
deriving DecidableEq

/-- The zero box `(0,0,0,0)`. -/
def zeroBBox {K : Type} [LinearOrderedField K] : BBox K := ⟨0, 0, 0, 0⟩

/-- The 4-dimensional Kalman observation vector `[cx, cy, s, r]`. -/
structure Obs4 (K : Type) where
  cx : K
  cy : K
  s : K
  r : K
deriving DecidableEq

/-- The 7-dimensional Kalman state vector `[cx, cy, s, r, vcx, vcy, vs]`. -/
structure State7 (K : Type) where
  s0 : K
  s1 : K
  s2 : K
  s3 : K
  s4 : K
  s5 : K
  s6 : K
deriving DecidableEq

section Geometry

variable {K : Type} [LinearOrderedField K]

/-- `BBox::new`: collapses inverted corners to the zero box. -/
def BBox.new (x_1 y_1 x_2 y_2 : K) : BBox K :=
  if x_1 > x_2 ∨ y_1 > y_2 then ⟨0, 0, 0, 0⟩ else ⟨x_1, y_1, x_2, y_2⟩

/-- `BBox::from_state_vector`.  `sqF` models `f64::sqrt`. -/
def BBox.fromStateVector (sqF : K → K) (v : State7 K) : BBox K :=
  if v.s2 < 0 ∨ v.s3 < 0 then BBox.new 0 0 0 0
  else
    let w := sqF (v.s2 * v.s3)
    let h := v.s2 / w
    BBox.new (v.s0 - w / 2) (v.s1 - h / 2) (v.s0 + w / 2) (v.s1 + h / 2)

/-- `BBox::to_observation_vector`. -/
def BBox.toObservationVector (b : BBox K) : Obs4 K :=
  let w := max (b.x_2 - b.x_1) 0
  let h := max (b.y_2 - b.y_1) 0
  ⟨b.x_1 + w / 2, b.y_1 + h / 2, w * h, w / (h + epsF64)⟩

/-- `BBox::area`. -/
def BBox.area (b : BBox K) : K := max ((b.x_2 - b.x_1) * (b.y_2 - b.y_1)) 0

/-- `BBox::iou`. -/
def BBox.iou (b o : BBox K) : K :=
  let iwidth := max (min b.x_2 o.x_2 - max b.x_1 o.x_1) 0
  let iheight := max (min b.y_2 o.y_2 - max b.y_1 o.y_1) 0
  let iarea := iwidth * iheight
  let uni := b.area + o.area - iarea
  if uni = 0 then 0 else iarea / uni

/-- `BBox::speed_direction`: unit vector from `o`'s center to `b`'s center
(zero vector when the norm is not positive).  `sqF` models `f64::sqrt`. -/
def BBox.speedDirection (sqF : K → K) (b o : BBox K) : K × K :=
  let d1 := b.toObservationVector.cx - o.toObservationVector.cx
  let d2 := b.toObservationVector.cy - o.toObservationVector.cy
  let n := sqF (d1 * d1 + d2 * d2)
  if n > 0 then (d1 / n, d2 / n) else (0, 0)

end Geometry

/-- `Observation` from `kalman_box_tracker.rs`. -/
structure Observation (K : Type) where
  time_step : ℕ
  bbox : BBox K
deriving DecidableEq

/-- `Track` from `kalman_box_tracker.rs` (the emitted snapshot).  The Rust
field `class` is a Lean keyword and is rendered `cls`. -/
structure Track (K : Type) where
  id : ℕ
  bbox : BBox K
  cls : ℕ
deriving DecidableEq

/-- `KalmanBoxTracker` from `kalman_box_tracker.rs`.  `KF` is the state of the
external `kfilter` crate's filter, kept abstract; the Rust field `class` is
rendered `cls`.  The `VecDeque` ring is a list, front at the head. -/
structure KalmanBoxTracker (K KF : Type) where
  age : ℕ
  cls : ℕ
  delta_t : ℕ
  hit_streak : ℕ
  id : ℕ
  kalman : KF
  prev_observations : List (Observation K)
  speed_direction : K × K
  time_since_update : ℕ

/-- First element of a list minimizing `key`, mirroring Rust's
`Iterator::min_by_key` (which returns the first of several equal minima). -/
def minByFirst {α : Type} (key : α → ℕ) : List α → Option α :=
  List.foldl
    (fun acc x =>
      match acc with
      | none => some x
      | some b => if key x < key b then some x else acc)
    none

section Tracker

variable {K KF : Type} [LinearOrderedField K]
variable (sqF : K → K)
variable (kfPredict : KF → KF) (kfUpdate : KF → Obs4 K → KF)
variable (kfInit : Obs4 K → KF) (kfState : KF → State7 K)

/-- `KalmanBoxTracker::new`.  The process-wide atomic `ID_COUNTER` is modelled
by passing the freshly fetched id explicitly; `kfInit` models building the
`kfilter` filter from the birth box's observation vector.  Note the Rust
argument order `(bbox, class, delta_t)`. -/
def KalmanBoxTracker.new (bbox : BBox K) (cls delta_t : ℕ) (id : ℕ) :
    KalmanBoxTracker K KF :=
  { age := 0
    cls := cls
    delta_t := delta_t
    hit_streak := 1
    id := id
    kalman := kfInit bbox.toObservationVector
    prev_observations := [⟨0, bbox⟩]
    speed_direction := (0, 0)
    time_since_update := 0 }

/-- `KalmanBoxTracker::get_last_observation`.  The Rust code unwraps
`back()`; the ring of a live track is never empty (see the ring invariant),
so the default is never read on reachable states. -/
def KalmanBoxTracker.getLastObservation (tr : KalmanBoxTracker K KF) :
    Observation K :=
  tr.prev_observations.getLastD ⟨0, ⟨0, 0, 0, 0⟩⟩

/-- `KalmanBoxTracker::get_observation_dt_time_steps_away`: ring entry whose
`time_step` is closest to `age.saturating_sub(delta_t)` (`Nat` subtraction),
first entry on ties (`min_by_key`). -/
def KalmanBoxTracker.getObservationDtAway (tr : KalmanBoxTracker K KF) :
    BBox K :=
  ((minByFirst (fun o => Nat.dist o.time_step (tr.age - tr.delta_t))
      tr.prev_observations).getD ⟨0, ⟨0, 0, 0, 0⟩⟩).bbox

/-- `KalmanBoxTracker::get_bbox`: box projected from the current filter
state. -/
def KalmanBoxTracker.getBBox (tr : KalmanBoxTracker K KF) : BBox K :=
  BBox.fromStateVector sqF (kfState tr.kalman)

/-- `KalmanBoxTracker::get_state`: the emitted snapshot. -/
def KalmanBoxTracker.getState (tr : KalmanBoxTracker K KF) : Track K :=
  ⟨tr.id, BBox.fromStateVector sqF (kfState tr.kalman), tr.cls⟩

/-- `KalmanBoxTracker::predict`.  The Rust method also returns the predicted
box (`from_state_vector` of the new state); the orchestrator discards it, so
only the state change is modelled. -/
def KalmanBoxTracker.predict (tr : KalmanBoxTracker K KF) :
    KalmanBoxTracker K KF :=
  { tr with
    age := tr.age + 1
    hit_streak := if tr.time_since_update > 0 then 0 else tr.hit_streak
    time_since_update := tr.time_since_update + 1
    kalman := kfPredict tr.kalman }

/-- The interpolated observation fed to the `t`-th Kalman sub-update:
`(k - t)/k · last + t/k · z` componentwise (`kalman_box_tracker.rs`,
`update_kalman_filter`). -/
def interpObs (last z : Obs4 K) (k t : ℕ) : Obs4 K :=
  ⟨((k - t : ℕ) : K) / (k : K) * last.cx + (t : K) / (k : K) * z.cx,
   ((k - t : ℕ) : K) / (k : K) * last.cy + (t : K) / (k : K) * z.cy,
   ((k - t : ℕ) : K) / (k : K) * last.s + (t : K) / (k : K) * z.s,
   ((k - t : ℕ) : K) / (k : K) * last.r + (t : K) / (k : K) * z.r⟩

/-- `KalmanBoxTracker::update_kalman_filter`: the re-anchoring loop
`for t in 1..=steps_between`, updating with the interpolated observation and
predicting between sub-updates (`if t < steps_between`). -/
def KalmanBoxTracker.updateKalmanFilter (tr : KalmanBoxTracker K KF)
    (z : Obs4 K) : KF :=
  let last := tr.getLastObservation
  let steps := tr.age - last.time_step
  (List.range' 1 steps).foldl
    (fun kf t =>
      let kf1 := kfUpdate kf (interpObs last.bbox.toObservationVector z steps t)
      if t < steps then kfPredict kf1 else kf1)
    tr.kalman

/-- `KalmanBoxTracker::add_bbox_to_observations`: pop the front when the ring
already holds at least `delta_t` entries, then push `(age, bbox)` at the
back. -/
def KalmanBoxTracker.addBBoxToObservations (tr : KalmanBoxTracker K KF)
    (bbox : BBox K) : List (Observation K) :=
  (if tr.prev_observations.length ≥ tr.delta_t then
    tr.prev_observations.drop 1
  else tr.prev_observations) ++ [⟨tr.age, bbox⟩]

/-- `KalmanBoxTracker::update`. -/
def KalmanBoxTracker.update (tr : KalmanBoxTracker K KF) (bbox : BBox K) :
    KalmanBoxTracker K KF :=
  { tr with
    speed_direction := BBox.speedDirection sqF bbox tr.getObservationDtAway
    kalman :=
      tr.updateKalmanFilter kfPredict kfUpdate bbox.toObservationVector
    prev_observations := tr.addBBoxToObservations bbox
    time_since_update := 0
    hit_streak := tr.hit_streak + 1 }

end Tracker

/-- `Detection` from `oc_sort_tracker.rs`.  The `f64` score is modelled by
`Option K`: `none` stands for an IEEE NaN, for which every comparison is
false — the only fact about scores the tracker observes.  The Rust field
`class` is rendered `cls`. -/
structure Detection (K : Type) where
  bbox : BBox K
  cls : ℕ
  score : Option K

/-- The comparison `score >= threshold` performed by the BYTE partition;
false when the score is NaN. -/
def scoreGE {K : Type} [LinearOrderedField K] (s : Option K) (t : K) : Bool :=
  match s with
  | none => false
  | some v => decide (t ≤ v)

/-- An integer weight matrix, as consumed by the Hungarian solver
(`pathfinding::Matrix<i64>`). -/
structure CMatrix where
  rows : ℕ
  cols : ℕ
  entry : ℕ → ℕ → ℤ

/-- `Matrix::transposed`. -/
def CMatrix.transposed (m : CMatrix) : CMatrix :=
  ⟨m.cols, m.rows, fun i j => m.entry j i⟩

section Assoc

variable {K KF : Type} [LinearOrderedField K] [FloorRing K]
variable (sqF : K → K) (acosF : K → K) (piK : K)
variable (kfState : KF → State7 K)
variable (σ : CMatrix → List ℕ)

/-- `calc_iou_cost_matrix`: entry `(i, j)` is `(-(iou · 10⁴)) as i64`.
Out-of-range indices (which would panic in Rust) give `0`. -/
def calcIouCostMatrix (bs1 bs2 : List (BBox K)) : CMatrix :=
  ⟨bs1.length, bs2.length, fun i j =>
    match bs1.get? i, bs2.get? j with
    | some b1, some b2 => rustCastI64 (-(b1.iou b2 * iouMultiplier))
    | _, _ => 0⟩

/-- `add_class_cost_matrix`: adds `0` on class match and
`(100 · 10⁴) as i64` on mismatch to each in-range entry. -/
def addClassCostMatrix (detections : List (Detection K))
    (detectionIndices : List ℕ) (trackers : List (KalmanBoxTracker K KF))
    (trackerIndices : List ℕ) (m : CMatrix) : CMatrix :=
  { m with
    entry := fun i j =>
      m.entry i j +
        match detectionIndices.get? i, trackerIndices.get? j with
        | some di, some ti =>
          match detections.get? di, trackers.get? ti with
          | some d, some tr =>
            if d.cls = tr.cls then 0
            else rustCastI64 ((100 : K) * iouMultiplier)
          | _, _ => 0
        | _, _ => 0 }

/-- The momentum term `add_speed_cost_matrix` adds to one entry: with `v` the
tracker's stored `speed_direction` and `u` the unit direction from the
tracker's `delta_t`-steps-away observation to the detection box,
`((acos(v · u) - π) / π · 0.2 · 10⁴) as i64`.  The code does not clamp the dot
product; in `f64`, a dot product outside `[-1, 1]` makes `acos` return NaN and
the whole expression casts to `0`, which the `if` models.  (`0.2` is modelled
by the exact `1/5`.) -/
def speedCostTerm (b1 : BBox K) (tr : KalmanBoxTracker K KF) : ℤ :=
  let inertia := tr.speed_direction
  let u := BBox.speedDirection sqF b1 tr.getObservationDtAway
  let dot := inertia.1 * u.1 + inertia.2 * u.2
  if |dot| ≤ 1 then
    rustCastI64 ((acosF dot - piK) / piK * (1 / 5) * iouMultiplier)
  else 0

/-- `add_speed_cost_matrix`: iterates over the detection boxes and over the
full tracker slice (not the tracker index list), adding `speedCostTerm` to
each in-range entry. -/
def addSpeedCostMatrix (detectionBBoxes : List (BBox K))
    (trackers : List (KalmanBoxTracker K KF)) (m : CMatrix) : CMatrix :=
  { m with
    entry := fun i j =>
      m.entry i j +
        match detectionBBoxes.get? i, trackers.get? j with
        | some b1, some tr => speedCostTerm sqF acosF piK b1 tr
        | _, _ => 0 }

/-- `calculate_matching`: transpose when rows exceed columns, run the solver,
report unassigned columns, then gate each assigned pair on IoU threshold and
class equality.  Rejected pairs go to both unmatched lists (mapped through the
caller's index lists); unassigned columns are reported as raw column
positions, exactly as in the source. -/
def calculateMatching (detections : List (Detection K))
    (detectionIndices : List ℕ) (trackers : List (KalmanBoxTracker K KF))
    (trackerIndices : List ℕ) (costMatrix iouMatrix : CMatrix)
    (iouThreshold : K) : List (ℕ × ℕ) × List ℕ × List ℕ :=
  let transpose := costMatrix.rows > costMatrix.cols
  let weights := if transpose then costMatrix.transposed else costMatrix
  let av := σ weights
  let unmatchedDetections0 : List ℕ :=
    if transpose then (List.range weights.cols).filter (fun c => ! av.contains c)
    else []
  let unmatchedTrackers0 : List ℕ :=
    if transpose then []
    else (List.range weights.cols).filter (fun c => ! av.contains c)
  av.enum.foldl
    (fun acc ij =>
      let dI := if transpose then ij.2 else ij.1
      let tI := if transpose then ij.1 else ij.2
      let detectionIndex := detectionIndices.getD dI 0
      let trackerIndex := trackerIndices.getD tI 0
      let invalidIou :=
        -(iouMatrix.entry dI tI) < rustCastI64 (iouThreshold * iouMultiplier)
      let invalidClass :=
        ((detections.get? detectionIndex).map Detection.cls).getD 0 ≠
          ((trackers.get? trackerIndex).map KalmanBoxTracker.cls).getD 0
      if invalidIou ∨ invalidClass then
        (acc.1, acc.2.1 ++ [detectionIndex], acc.2.2 ++ [trackerIndex])
      else
        (acc.1 ++ [(detectionIndex, trackerIndex)], acc.2.1, acc.2.2))
    ([], unmatchedDetections0, unmatchedTrackers0)

/-- `get_bboxes`: detection boxes and current tracker boxes selected by the
index lists. -/
def getBBoxes (detections : List (Detection K)) (detectionIndices : List ℕ)
    (trackers : List (KalmanBoxTracker K KF)) (trackerIndices : List ℕ) :
    List (BBox K) × List (BBox K) :=
  (detectionIndices.map (fun di =>
      ((detections.get? di).map Detection.bbox).getD zeroBBox),
   trackerIndices.map (fun ti =>
      ((trackers.get? ti).map
        (fun tr => tr.getBBox sqF kfState)).getD zeroBBox))

/-- `associate_detections_to_trackers` (the primary mode: IoU + momentum +
class; no empty-input shortcut in the source). -/
def associateDetectionsToTrackers (detections : List (Detection K))
    (detectionIndices : List ℕ) (trackers : List (KalmanBoxTracker K KF))
    (trackerIndices : List ℕ) (iouThreshold : K) :
    List (ℕ × ℕ) × List ℕ × List ℕ :=
  let bbs := getBBoxes sqF kfState detections detectionIndices trackers
    trackerIndices
  let iouMatrix := calcIouCostMatrix bbs.1 bbs.2
  let costMatrix := addClassCostMatrix detections detectionIndices trackers
    trackerIndices (addSpeedCostMatrix sqF acosF piK bbs.1 trackers iouMatrix)
  calculateMatching σ detections detectionIndices trackers trackerIndices
    costMatrix iouMatrix iouThreshold

/-- `byte_associate` (IoU + class, with the empty-input shortcut). -/
def byteAssociate (detections : List (Detection K)) (detectionIndices : List ℕ)
    (trackers : List (KalmanBoxTracker K KF)) (trackerIndices : List ℕ)
    (iouThreshold : K) : List (ℕ × ℕ) × List ℕ × List ℕ :=
  if detectionIndices.isEmpty ∨ trackerIndices.isEmpty then
    ([], detectionIndices, trackerIndices)
  else
    let bbs := getBBoxes sqF kfState detections detectionIndices trackers
      trackerIndices
    let iouMatrix := calcIouCostMatrix bbs.1 bbs.2
    let costMatrix := addClassCostMatrix detections detectionIndices trackers
      trackerIndices iouMatrix
    calculateMatching σ detections detectionIndices trackers trackerIndices
      costMatrix iouMatrix iouThreshold

/-- `observation_centric_recovery` (IoU + class against each tracker's last
observed box, with the empty-input shortcut). -/
def observationCentricRecovery (detections : List (Detection K))
    (detectionIndices : List ℕ) (trackers : List (KalmanBoxTracker K KF))
    (trackerIndices : List ℕ) (iouThreshold : K) :
    List (ℕ × ℕ) × List ℕ × List ℕ :=
  if detectionIndices.isEmpty ∨ trackerIndices.isEmpty then
    ([], detectionIndices, trackerIndices)
  else
    let detectionBBoxes := detectionIndices.map (fun di =>
      ((detections.get? di).map Detection.bbox).getD zeroBBox)
    let trackerObservations := trackerIndices.map (fun ti =>
      ((trackers.get? ti).map
        (fun tr => tr.getLastObservation.bbox)).getD zeroBBox)
    let iouMatrix := calcIouCostMatrix detectionBBoxes trackerObservations
    let costMatrix := addClassCostMatrix detections detectionIndices trackers
      trackerIndices iouMatrix
    calculateMatching σ detections detectionIndices trackers trackerIndices
      costMatrix iouMatrix iouThreshold

end Assoc

/-- Configuration of `OCSort` (`oc_sort_tracker.rs`). -/
structure OCConfig (K : Type) where
  max_age : ℕ
  iou_threshold : K
  delta_t : ℕ
  score_threshold : K
  min_hit_streak : ℕ

/-- Mutable state of `OCSort`: the live trackers and the id allocator.
The Rust id allocator is a process-wide atomic counter; it is modelled as the
next id to hand out, threaded through the instance. -/
structure OCState (K KF : Type) where
  trackers : List (KalmanBoxTracker K KF)
  next_id : ℕ

section Orchestrator

variable {K KF : Type} [LinearOrderedField K] [FloorRing K]
variable (sqF : K → K) (acosF : K → K) (piK : K)
variable (kfPredict : KF → KF) (kfUpdate : KF → Obs4 K → KF)
variable (kfInit : Obs4 K → KF) (kfState : KF → State7 K)
variable (σ : CMatrix → List ℕ)

/-- `OCSort::get_trackers`: snapshots of the live tracks passing
`time_since_update < 1 && hit_streak >= min_hit_streak`, in internal order.
A pure projection of the state. -/
def getTrackers (cfg : OCConfig K) (s : OCState K KF) : List (Track K) :=
  (s.trackers.filter (fun tr =>
      decide (tr.time_since_update < 1) &&
        decide (tr.hit_streak ≥ cfg.min_hit_streak))).map
    (fun tr => tr.getState sqF kfState)

/-- Step 1 of `OCSort::update`: `predict()` on every live track. -/
def predictAll (trackers : List (KalmanBoxTracker K KF)) :
    List (KalmanBoxTracker K KF) :=
  trackers.map (fun tr => tr.predict kfPredict)

/-- Step 2 of `OCSort::update`: retain the trackers with
`time_since_update <= max_age`. -/
def cullStale (cfg : OCConfig K) (trackers : List (KalmanBoxTracker K KF)) :
    List (KalmanBoxTracker K KF) :=
  trackers.filter (fun tr => decide (tr.time_since_update ≤ cfg.max_age))

/-- The `partition_map` of `OCSort::update`: indices of the detections with
`score >= score_threshold` (left) and the rest (right), in input order. -/
def partitionByScore (cfg : OCConfig K) (detections : List (Detection K)) :
    List ℕ × List ℕ :=
  ((detections.enum.filter (fun p => scoreGE p.2.score cfg.score_threshold)).map
      Prod.fst,
   (detections.enum.filter (fun p =>
      ! scoreGE p.2.score cfg.score_threshold)).map Prod.fst)

/-- The matched-pairs loop of `OCSort::update`: for each `(detection_index,
tracker_index)` in turn, `trackers[tracker_index].update(bbox)`.  An
out-of-range index (a panic in Rust) leaves the list unchanged. -/
def applyMatches (detections : List (Detection K))
    (ms : List (ℕ × ℕ)) (trackers : List (KalmanBoxTracker K KF)) :
    List (KalmanBoxTracker K KF) :=
  ms.foldl
    (fun trs p =>
      match trs.get? p.2, detections.get? p.1 with
      | some tr, some d =>
        trs.set p.2 (tr.update sqF kfPredict kfUpdate d.bbox)
      | _, _ => trs)
    trackers

/-- The track-creation loop over unmatched detection indices at the end of
`OCSort::update`: `KalmanBoxTracker::new(bbox, class, delta_t)` with a fresh
id per track. -/
def createTracks (cfg : OCConfig K) (detections : List (Detection K))
    (indices : List ℕ) (trackers : List (KalmanBoxTracker K KF))
    (nextId : ℕ) : List (KalmanBoxTracker K KF) × ℕ :=
  indices.foldl
    (fun acc i =>
      match detections.get? i with
      | some d =>
        (acc.1 ++ [KalmanBoxTracker.new kfInit d.bbox d.cls
          cfg.delta_t acc.2], acc.2 + 1)
      | none => acc)
    (trackers, nextId)

/-- The track-creation loop of the no-live-trackers branch of
`OCSort::update`.  The source calls `KalmanBoxTracker::new(detection.bbox,
self.delta_t, detection.class)` against the signature `new(bbox, class,
delta_t)`, so the configuration's `delta_t` is bound to the `class` field and
the detection's class to the `delta_t` field; the swap is preserved here. -/
def createTracksSwapped (cfg : OCConfig K) (detections : List (Detection K))
    (indices : List ℕ) (trackers : List (KalmanBoxTracker K KF))
    (nextId : ℕ) : List (KalmanBoxTracker K KF) × ℕ :=
  indices.foldl
    (fun acc i =>
      match detections.get? i with
      | some d =>
        (acc.1 ++ [KalmanBoxTracker.new kfInit d.bbox cfg.delta_t
          d.cls acc.2], acc.2 + 1)
      | none => acc)
    (trackers, nextId)

/-- `OCSort::update`.  Returns the new state together with the returned
snapshot list (`self.get_trackers()` on every return path). -/
def OCSortUpdate (cfg : OCConfig K) (s : OCState K KF)
    (detections : List (Detection K)) : OCState K KF × List (Track K) :=
  let ts := cullStale cfg (predictAll kfPredict s.trackers)
  let part := partitionByScore cfg detections
  if ts.isEmpty then
    let born := createTracksSwapped kfInit cfg detections part.1 ts s.next_id
    let s1 : OCState K KF := ⟨born.1, born.2⟩
    (s1, getTrackers sqF kfState cfg s1)
  else if detections.isEmpty then
    let s1 : OCState K KF := ⟨ts, s.next_id⟩
    (s1, getTrackers sqF kfState cfg s1)
  else
    let r1 := associateDetectionsToTrackers sqF acosF piK kfState σ detections
      part.1 ts (List.range ts.length) cfg.iou_threshold
    let r2 := byteAssociate sqF kfState σ detections part.2 ts r1.2.2
      cfg.iou_threshold
    let r3 := observationCentricRecovery σ detections r1.2.1 ts
      r2.2.2 cfg.iou_threshold
    let ts1 := applyMatches sqF kfPredict kfUpdate detections
      (r1.1 ++ r2.1 ++ r3.1) ts
    let born := createTracks kfInit cfg detections r3.2.1 ts1 s.next_id
    let s1 : OCState K KF := ⟨born.1, born.2⟩
    (s1, getTrackers sqF kfState cfg s1)

/-- A sequence of `update` calls from a state (the per-frame loop of a
caller). -/
def runFrames (cfg : OCConfig K) (s : OCState K KF)
    (frames : List (List (Detection K))) : OCState K KF :=
  frames.foldl
    (fun st ds =>
      (OCSortUpdate sqF acosF piK kfPredict kfUpdate kfInit kfState σ cfg st
        ds).1)
    s

end Orchestrator

/-- All length-`k` lists of pairwise distinct elements of `avail`, in
lexicographic order of choice. -/
def injChoices : ℕ → List ℕ → List (List ℕ)
  | 0, _ => [[]]
  | k + 1, avail =>
    avail.flatMap (fun c =>
      (injChoices k (avail.erase c)).map (fun r => c :: r))

/-- Total weight of an assignment (row `i` to column `a[i]`). -/
def assignTotal (m : CMatrix) (a : List ℕ) : ℤ :=
  (a.enum.map (fun p => m.entry p.1 p.2)).sum

/-- Modelled from the spec: the Hungarian solver is the external
`pathfinding` crate's `kuhn_munkres_min`, not part of this repository's
sources.  Per the spec (§4.3) it returns an assignment covering every row
with a distinct column and minimizing the total weight, deterministically
(stable tie-breaking).  This brute-force minimizer realizes that contract and
instantiates the solver parameter in concrete evaluations; at each
evaluation site the minimum is unique, so any correct solver agrees with
it. -/
def bruteMin (m : CMatrix) : List ℕ :=
  match injChoices m.rows (List.range m.cols) with
  | [] => []
  | c :: cs =>
    cs.foldl (fun best c2 =>
      if assignTotal m c2 < assignTotal m best then c2 else best) c

/-!  Concrete instantiations of the abstract parameters, used to evaluate the
embedded code on the failing inputs and in witnesses.  The Kalman filter type
is instantiated by the state vector itself with identity dynamics: the claims
evaluated concretely do not depend on the filter's numerics, only on which
calls are made, and any divergence of these stand-ins from `f64` arithmetic is
noted at each use site. -/

/-- A square-root stand-in valid at the arguments `0`, `1` and `4`, the only
points where the concrete evaluations below inspect a square root
(`sqrt 0 = 0`, `sqrt 1 = 1` and `sqrt 4 = 2` also hold for `f64`). -/
def qSqF : ℚ → ℚ := fun q => if q = 1 then 1 else if q = 4 then 2 else 0

/-- An `acos` stand-in.  In the concrete evaluations every dot product fed to
it is `0`, so it shifts all momentum terms by the same constant and no
assignment ranking depends on its value. -/
def qAcos : ℚ → ℚ := fun _ => 0

/-- Identity filter dynamics: `predict` keeps the state. -/
def idPredict : State7 ℚ → State7 ℚ := id

/-- Identity filter dynamics: `update` keeps the state. -/
def idUpdate : State7 ℚ → Obs4 ℚ → State7 ℚ := fun s _ => s

/-- Filter construction mirroring the Rust `x_initial`: the observation in the
first four entries, zeros elsewhere. -/
def obsInit : Obs4 ℚ → State7 ℚ := fun z => ⟨z.cx, z.cy, z.s, z.r, 0, 0, 0⟩

/-- The configuration of the spec's scenario S1 (also the one used by the
repository's own tests): `new(5, 0.3, 3, 0.5, 1)`. -/
def cfgS1 : OCConfig ℚ := ⟨5, 3 / 10, 3, 1 / 2, 1⟩

/-- A live tracker over the identity-dynamics filter with the given filter
state, class and id (age 1, one birth observation, as after one predict). -/
def mkTrk (st : State7 ℚ) (c i : ℕ) : KalmanBoxTracker ℚ (State7 ℚ) :=
  { age := 1, cls := c, delta_t := 3, hit_streak := 1, id := i, kalman := st,
    prev_observations := [⟨0, ⟨0, 0, 1, 1⟩⟩], speed_direction := (0, 0),
    time_since_update := 0 }

/-- Filter state projecting to the box `(0, 0, 1, 1)`. -/
def stBox01 : State7 ℚ := ⟨1 / 2, 1 / 2, 1, 1, 0, 0, 0⟩

/-- Filter state projecting to the box `(9.5, 9.5, 10.5, 10.5)`, disjoint
from `(0, 0, 1, 1)`. -/
def stFar : State7 ℚ := ⟨10, 10, 1, 1, 0, 0, 0⟩

/-- On a weight matrix with no rows the brute-force minimizer returns the
empty assignment (as every valid solver must). -/
theorem bruteMin_of_rows_zero (m : CMatrix) (h : m.rows = 0) :
    bruteMin m = [] := by
  simp [bruteMin, h, injChoices]

/-- C1: for every sequence of update calls, every emitted track's class equals
the class of the detection that created or last updated it; in particular a
track created from an unmatched high-score detection — including the path
taken when no tracks exist yet — carries the detection's class, never the
tracker's `delta_t` configuration value.

The code violates this on the no-live-trackers path: `oc_sort_tracker.rs`
line 108 calls `KalmanBoxTracker::new(detection.bbox, self.delta_t,
detection.class)` against the signature `new(bbox, class, delta_t)`.  With
the S1 configuration (`delta_t = 3`) and a single high-score detection of
class `1`, the emitted track carries class `3 = delta_t`, not `1`.  (The
spec's §8 invariant 4 and scenario S1 state the claimed behavior, so the
claim is right and the code is wrong.) -/
theorem c1_empty_path_class_is_delta_t :
    ((OCSortUpdate qSqF qAcos 1 idPredict idUpdate obsInit id bruteMin cfgS1
        ⟨[], 0⟩ [⟨BBox.new 1 1 2 2, 1, some (9 / 10)⟩]).2.map Track.cls) = [3]
    ∧ cfgS1.delta_t = 3 ∧ (3 : ℕ) ≠ 1 := by
  refine ⟨?_, rfl, by decide⟩
  simp [OCSortUpdate, predictAll, cullStale, partitionByScore, scoreGE,
    createTracksSwapped, KalmanBoxTracker.new, getTrackers,
    KalmanBoxTracker.getState, cfgS1]
  norm_num

/-- C4, counterexample: on the state vector `s = (1, 1, 0, 0, 0, 0, 0)` the
guard `s[2] < 0 ∨ s[3] < 0` does not fire, the computed width
`w = sqrt(0 · 0) = 0`, and `from_state_vector` returns the degenerate box
`(1, 1, 1, 1)` — not the zero-box the claim requires in the `w = 0` case.
The `x` coordinates `s[0] ± w/2 = 1` do not involve the division `s[2]/w`,
so the conclusion is independent of how the `0/0` in the `y` coordinates is
modelled (here the total-division value `0`; in `f64` a NaN, for which the
collapse comparison `y_1 > y_2` in `BBox::new` is likewise false). -/
theorem c4_w_zero_not_zero_box :
    BBox.fromStateVector qSqF (⟨1, 1, 0, 0, 0, 0, 0⟩ : State7 ℚ) = ⟨1, 1, 1, 1⟩
    ∧ BBox.fromStateVector qSqF (⟨1, 1, 0, 0, 0, 0, 0⟩ : State7 ℚ) ≠ zeroBBox
    ∧ qSqF ((0 : ℚ) * 0) = 0 := by
  refine ⟨?_, ?_, by norm_num [qSqF]⟩ <;>
    norm_num [BBox.fromStateVector, BBox.new, qSqF, zeroBBox]

/-- C4, amended: `from_state_vector` returns the zero-box whenever
`s[2] < 0` or `s[3] < 0`; otherwise, with `w = sqrt(s[2]·s[3])` and
`h = s[2]/w`, it returns `new(s[0]-w/2, s[1]-h/2, s[0]+w/2, s[1]+h/2)` with
no guard for `w = 0`: when `w > 0` this is the box centered at
`(s[0], s[1])` with width `w` and height `s[2]/w`; when `w = 0` the
division by zero is performed and the x-extent degenerates to the single
point `s[0]`, so the result is in general not the zero-box. -/
theorem c4_from_state_vector_amended {K : Type} [LinearOrderedField K]
    (sqF : K → K) (v : State7 K) :
    (v.s2 < 0 ∨ v.s3 < 0 → BBox.fromStateVector sqF v = BBox.new 0 0 0 0)
    ∧ (¬ v.s2 < 0 → ¬ v.s3 < 0 → 0 < sqF (v.s2 * v.s3) →
        (BBox.fromStateVector sqF v).x_2 - (BBox.fromStateVector sqF v).x_1 =
            sqF (v.s2 * v.s3)
        ∧ (BBox.fromStateVector sqF v).y_2 - (BBox.fromStateVector sqF v).y_1 =
            v.s2 / sqF (v.s2 * v.s3)
        ∧ (BBox.fromStateVector sqF v).x_1 + (BBox.fromStateVector sqF v).x_2 =
            2 * v.s0
        ∧ (BBox.fromStateVector sqF v).y_1 + (BBox.fromStateVector sqF v).y_2 =
            2 * v.s1)
    ∧ (¬ v.s2 < 0 → ¬ v.s3 < 0 → sqF (v.s2 * v.s3) = 0 →
        (BBox.fromStateVector sqF v).x_1 = v.s0
        ∧ (BBox.fromStateVector sqF v).x_2 = v.s0) := by
  refine ⟨fun h => by simp [BBox.fromStateVector, h], fun h2 h3 hw => ?_,
    fun h2 h3 hw => ?_⟩
  · have hh : 0 ≤ v.s2 / sqF (v.s2 * v.s3) :=
      div_nonneg (not_lt.mp h2) hw.le
    have hcol : ¬ (v.s0 - sqF (v.s2 * v.s3) / 2 > v.s0 + sqF (v.s2 * v.s3) / 2
        ∨ v.s1 - v.s2 / sqF (v.s2 * v.s3) / 2 >
            v.s1 + v.s2 / sqF (v.s2 * v.s3) / 2) := by
      push_neg
      constructor <;> nlinarith
    simp only [BBox.fromStateVector, if_neg (by tauto : ¬ (v.s2 < 0 ∨ v.s3 < 0)),
      BBox.new, if_neg hcol]
    refine ⟨by ring, by ring, by ring, by ring⟩
  · have hcol : ¬ (v.s0 - sqF (v.s2 * v.s3) / 2 > v.s0 + sqF (v.s2 * v.s3) / 2
        ∨ v.s1 - v.s2 / sqF (v.s2 * v.s3) / 2 >
            v.s1 + v.s2 / sqF (v.s2 * v.s3) / 2) := by
      push_neg
      rw [hw]
      simp [div_zero]
    simp only [BBox.fromStateVector, if_neg (by tauto : ¬ (v.s2 < 0 ∨ v.s3 < 0)),
      BBox.new, if_neg hcol]
    rw [hw]
    constructor <;> ring

/-- Witness for the amended C4 statement at a concrete state vector. -/
theorem c4_from_state_vector_amended_witness :
    (¬ (4 : ℚ) < 0 ∧ ¬ (1 : ℚ) < 0 ∧ 0 < qSqF ((4 : ℚ) * 1))
    ∧ ((BBox.fromStateVector qSqF (⟨0, 0, 4, 1, 0, 0, 0⟩ : State7 ℚ)).x_2 -
          (BBox.fromStateVector qSqF (⟨0, 0, 4, 1, 0, 0, 0⟩ : State7 ℚ)).x_1 =
          qSqF ((4 : ℚ) * 1)
        ∧ (BBox.fromStateVector qSqF (⟨0, 0, 4, 1, 0, 0, 0⟩ : State7 ℚ)).y_2 -
          (BBox.fromStateVector qSqF (⟨0, 0, 4, 1, 0, 0, 0⟩ : State7 ℚ)).y_1 =
          (4 : ℚ) / qSqF ((4 : ℚ) * 1)
        ∧ (BBox.fromStateVector qSqF (⟨0, 0, 4, 1, 0, 0, 0⟩ : State7 ℚ)).x_1 +
          (BBox.fromStateVector qSqF (⟨0, 0, 4, 1, 0, 0, 0⟩ : State7 ℚ)).x_2 =
          2 * 0
        ∧ (BBox.fromStateVector qSqF (⟨0, 0, 4, 1, 0, 0, 0⟩ : State7 ℚ)).y_1 +
          (BBox.fromStateVector qSqF (⟨0, 0, 4, 1, 0, 0, 0⟩ : State7 ℚ)).y_2 =
          2 * 0) := by
  have h1 : ¬ (4 : ℚ) < 0 := by norm_num
  have h2 : ¬ (1 : ℚ) < 0 := by norm_num
  have h3 : 0 < qSqF ((4 : ℚ) * 1) := by norm_num [qSqF]
  exact ⟨⟨h1, h2, h3⟩,
    (c4_from_state_vector_amended qSqF (⟨0, 0, 4, 1, 0, 0, 0⟩ : State7 ℚ)).2.1
      h1 h2 h3⟩

/-- The C10 run's live tracker after the predict step of `update`. -/
def trP : KalmanBoxTracker ℚ (State7 ℚ) :=
  { age := 2, cls := 1, delta_t := 3, hit_streak := 1, id := 0,
    kalman := stBox01, prev_observations := [⟨0, ⟨0, 0, 1, 1⟩⟩],
    speed_direction := (0, 0), time_since_update := 1 }

/-- The C10 run's live tracker after being updated with detection 2. -/
def trP2 : KalmanBoxTracker ℚ (State7 ℚ) :=
  { age := 2, cls := 1, delta_t := 3, hit_streak := 2, id := 0,
    kalman := stBox01,
    prev_observations := [⟨0, ⟨0, 0, 1, 1⟩⟩, ⟨2, ⟨0, 0, 1, 1⟩⟩],
    speed_direction := (0, 0), time_since_update := 0 }

/-- The track the C10 run creates from the NaN-score detection 0. -/
def newT : KalmanBoxTracker ℚ (State7 ℚ) :=
  { age := 0, cls := 7, delta_t := 3, hit_streak := 1, id := 1,
    kalman := obsInit (BBox.toObservationVector ⟨100, 100, 101, 101⟩),
    prev_observations := [⟨0, ⟨100, 100, 101, 101⟩⟩],
    speed_direction := (0, 0), time_since_update := 0 }

/-- The C10 detections: index 0 has a NaN score (and class 7, box far from
everything); indices 1 and 2 are high-score class-1 detections, detection 2
coinciding with the live tracker's box and detection 1 far from it. -/
def detsC10 : List (Detection ℚ) :=
  [⟨⟨100, 100, 101, 101⟩, 7, none⟩,
   ⟨⟨50, 50, 51, 51⟩, 1, some (9 / 10)⟩,
   ⟨⟨0, 0, 1, 1⟩, 1, some (9 / 10)⟩]

/-- The momentum term for a tracker whose stored `speed_direction` is the
zero vector: the dot product is `0` whatever the unit direction is, so with
the concrete `acos` stand-in (`qAcos = 0`, `piK = 1`) every entry receives
the same constant `-2000`, preserving all assignment rankings (the `f64`
code adds the constant `-1000` in this situation). -/
theorem speedCostTerm_zero_inertia (b : BBox ℚ)
    (tr : KalmanBoxTracker ℚ (State7 ℚ)) (h : tr.speed_direction = (0, 0)) :
    speedCostTerm qSqF qAcos 1 b tr = -2000 := by
  simp [speedCostTerm, h, qAcos]
  norm_num [rustCastI64, iouMultiplier, Int.ceil_neg, min_def, max_def]

set_option maxHeartbeats 1200000 in
/-- C10: a NaN-score detection is placed in the low-score set (the partition
test fails), and — the claim says — can never create a new track and is only
ever considered in the BYTE stage.  The code violates the second part: in
`calculate_matching`, unassigned solver columns are reported as raw
positions, so under transposition (more high-score detections than
trackers) the primary stage's unmatched-detection output holds positions
into `high_score_indices` rather than detection indices.  In the run below,
high-score detections are `[1, 2]`, detection 2 matches the single tracker,
and the unmatched high-score detection 1 is reported as position `0`.  That
`0` reaches the track-creation loop, which creates a track from
`detections[0]` — the NaN-score, class-7 detection.  The post-state carries
a class-7 track, and the returned snapshot list shows it too. -/
theorem c10_nan_detection_creates_track :
    (partitionByScore cfgS1 detsC10).2 = [0]
    ∧ ((OCSortUpdate qSqF qAcos 1 idPredict idUpdate obsInit id bruteMin
        cfgS1 ⟨[mkTrk stBox01 1 0], 1⟩ detsC10).1.trackers.map
          KalmanBoxTracker.cls) = [1, 7]
    ∧ ((OCSortUpdate qSqF qAcos 1 idPredict idUpdate obsInit id bruteMin
        cfgS1 ⟨[mkTrk stBox01 1 0], 1⟩ detsC10).2.map Track.cls) = [1, 7] := by
  have hb1 : BBox.fromStateVector qSqF stBox01 = ⟨0, 0, 1, 1⟩ := by
    norm_num [BBox.fromStateVector, BBox.new, qSqF, stBox01]
  have hi1 : BBox.iou (⟨0, 0, 1, 1⟩ : BBox ℚ) ⟨0, 0, 1, 1⟩ = 1 := by
    norm_num [BBox.iou, BBox.area, min_def, max_def]
  have hi3 : BBox.iou (⟨50, 50, 51, 51⟩ : BBox ℚ) ⟨0, 0, 1, 1⟩ = 0 := by
    norm_num [BBox.iou, BBox.area, min_def, max_def]
  have hsd2 : BBox.speedDirection qSqF (⟨0, 0, 1, 1⟩ : BBox ℚ) ⟨0, 0, 1, 1⟩ =
      (0, 0) := by
    norm_num [BBox.speedDirection, BBox.toObservationVector, qSqF, min_def,
      max_def]
  have hts : cullStale cfgS1 (predictAll idPredict [mkTrk stBox01 1 0]) =
      [trP] := by
    norm_num [cullStale, predictAll, KalmanBoxTracker.predict, mkTrk,
      idPredict, trP, cfgS1]
  have hpart : partitionByScore cfgS1 detsC10 = ([1, 2], [0]) := by
    norm_num [partitionByScore, scoreGE, cfgS1, detsC10, List.enum,
      List.enumFrom]
  have hr1 : associateDetectionsToTrackers qSqF qAcos 1
      (id : State7 ℚ → State7 ℚ) bruteMin detsC10 [1, 2] [trP] [0]
      cfgS1.iou_threshold = ([(2, 0)], [0], []) := by
    norm_num [associateDetectionsToTrackers, getBBoxes, detsC10,
      KalmanBoxTracker.getBBox, trP, hb1, hi1, hi3, calcIouCostMatrix,
      addSpeedCostMatrix, addClassCostMatrix, calculateMatching, bruteMin,
      injChoices, assignTotal, CMatrix.transposed,
      speedCostTerm_zero_inertia, rustCastI64, iouMultiplier, Int.ceil_neg,
      min_def, max_def, List.range_succ, cfgS1]
  have hr2 : byteAssociate qSqF (id : State7 ℚ → State7 ℚ) bruteMin detsC10
      [0] [trP] [] cfgS1.iou_threshold = ([], [0], []) := by
    simp [byteAssociate]
  have hr3 : observationCentricRecovery bruteMin detsC10 [0] [trP] []
      cfgS1.iou_threshold = ([], [0], []) := by
    simp [observationCentricRecovery]
  have happly : applyMatches qSqF idPredict idUpdate detsC10 [(2, 0)]
      [trP] = [trP2] := by
    norm_num [applyMatches, detsC10, KalmanBoxTracker.update,
      KalmanBoxTracker.updateKalmanFilter,
      KalmanBoxTracker.getLastObservation,
      KalmanBoxTracker.addBBoxToObservations,
      KalmanBoxTracker.getObservationDtAway, minByFirst, Nat.dist, hsd2,
      List.range', idPredict, idUpdate, trP, trP2]
  have hborn : createTracks obsInit cfgS1 detsC10 [0] [trP2] 1 =
      ([trP2, newT], 2) := by
    norm_num [createTracks, KalmanBoxTracker.new, cfgS1, detsC10, newT]
  have hde : detsC10.isEmpty = false := rfl
  refine ⟨hpart ▸ rfl, ?_, ?_⟩
  · simp only [OCSortUpdate, hts, hpart]
    norm_num [hde, hr1, hr2, hr3, happly, hborn, List.range_succ]
    simp [trP2, newT]
  · simp only [OCSortUpdate, hts, hpart]
    norm_num [hde, hr1, hr2, hr3, happly, hborn, List.range_succ,
      getTrackers, KalmanBoxTracker.getState]
    simp [trP2, newT, cfgS1]

/-- C2: for each solver-assigned pair the gating (IoU-below-threshold or
class mismatch, rejected pairs joining both unmatched lists) is as claimed,
but the claim that unassigned solver columns are reported by their original
index in the caller's index lists fails: `calculate_matching` initializes the
unmatched lists with raw column positions `0..columns` without mapping them
through `detection_indices`/`tracker_indices` (associate.rs lines 193-206),
while the rejected pairs of the gating loop are mapped (lines 214-215).

Concrete run: `byte_associate` over one detection (index list `[0]`) and
tracker index list `[1, 2]`, where the detection's box coincides with
tracker 1's box and is disjoint from tracker 2's.  The solver assigns the
single row to column 0 (tracker 1), which passes gating; column 1 — i.e. the
given tracker index 2 — is unassigned.  The code returns
`([(0, 1)], [], [1])`: tracker index 1 is reported simultaneously as matched
and as unmatched, and the actually-unmatched tracker index 2 appears
nowhere, breaking the claimed consistent index space. -/
theorem c2_unassigned_column_raw_position :
    byteAssociate qSqF (id : State7 ℚ → State7 ℚ) bruteMin
        [⟨⟨0, 0, 1, 1⟩, 1, some (1 / 4)⟩] [0]
        [mkTrk stFar 9 5, mkTrk stBox01 1 1, mkTrk stFar 1 2] [1, 2]
        (3 / 10) = ([(0, 1)], [], [1])
    ∧ (2 : ℕ) ∉ ([1] : List ℕ) := by
  refine ⟨?_, by decide⟩
  have hb1 : BBox.fromStateVector qSqF stBox01 = ⟨0, 0, 1, 1⟩ := by
    norm_num [BBox.fromStateVector, BBox.new, qSqF, stBox01]
  have hb2 : BBox.fromStateVector qSqF stFar =
      ⟨19 / 2, 19 / 2, 21 / 2, 21 / 2⟩ := by
    norm_num [BBox.fromStateVector, BBox.new, qSqF, stFar]
  have hi1 : BBox.iou (⟨0, 0, 1, 1⟩ : BBox ℚ) ⟨0, 0, 1, 1⟩ = 1 := by
    norm_num [BBox.iou, BBox.area, min_def, max_def]
  have hi2 : BBox.iou (⟨0, 0, 1, 1⟩ : BBox ℚ)
      ⟨19 / 2, 19 / 2, 21 / 2, 21 / 2⟩ = 0 := by
    norm_num [BBox.iou, BBox.area, min_def, max_def]
  norm_num [byteAssociate, getBBoxes, mkTrk, KalmanBoxTracker.getBBox,
    hb1, hb2, hi1, hi2, calcIouCostMatrix, addClassCostMatrix,
    calculateMatching, bruteMin, injChoices, assignTotal,
    CMatrix.transposed, rustCastI64, iouMultiplier, Int.ceil_neg,
    min_def, max_def, List.range_succ]

/-- Setting an index to the value already stored there leaves a list
unchanged. -/
theorem list_set_get?_self {α : Type} :
    ∀ (l : List α) (i : ℕ) (a : α), l.get? i = some a → l.set i a = l := by
  intro l
  induction l with
  | nil => intro i a h; cases h
  | cons x xs ih =>
    intro i a h
    cases i with
    | zero =>
      simp only [List.get?] at h
      injection h with h
      simp [List.set, h]
    | succ j =>
      simp only [List.get?] at h
      simp only [List.set]
      rw [ih j a h]

/-- `KalmanBoxTracker.predict` preserves the id. -/
theorem predict_id {K KF : Type} [LinearOrderedField K] (kfP : KF → KF)
    (tr : KalmanBoxTracker K KF) : (tr.predict kfP).id = tr.id := rfl

/-- `KalmanBoxTracker.update` preserves the id. -/
theorem update_id {K KF : Type} [LinearOrderedField K] (sqF : K → K)
    (kfP : KF → KF) (kfU : KF → Obs4 K → KF) (tr : KalmanBoxTracker K KF)
    (b : BBox K) : (tr.update sqF kfP kfU b).id = tr.id := rfl

/-- The matched-pairs loop changes no tracker id (each `set` stores an
updated tracker with the id it read). -/
theorem applyMatches_map_id {K KF : Type} [LinearOrderedField K]
    (sqF : K → K) (kfP : KF → KF) (kfU : KF → Obs4 K → KF)
    (ds : List (Detection K)) :
    ∀ (ms : List (ℕ × ℕ)) (trs : List (KalmanBoxTracker K KF)),
      (applyMatches sqF kfP kfU ds ms trs).map KalmanBoxTracker.id =
        trs.map KalmanBoxTracker.id := by
  intro ms
  induction ms with
  | nil => intro trs; rfl
  | cons p ps ih =>
    intro trs
    have hstep : applyMatches sqF kfP kfU ds (p :: ps) trs =
        applyMatches sqF kfP kfU ds ps
          (match trs.get? p.2, ds.get? p.1 with
           | some tr, some d => trs.set p.2 (tr.update sqF kfP kfU d.bbox)
           | _, _ => trs) := rfl
    rw [hstep]
    rcases hg : trs.get? p.2 with _ | tr <;>
      rcases hd : ds.get? p.1 with _ | d <;> simp only [hg, hd]
    · exact ih trs
    · exact ih trs
    · exact ih trs
    · rw [ih (trs.set p.2 (tr.update sqF kfP kfU d.bbox)), List.map_set]
      exact list_set_get?_self _ _ _ (by rw [List.get?_map, hg]; rfl)

/-- Well-formedness of the orchestrator state: tracker ids are pairwise
distinct and below the allocator's next id. -/
def TrackerIdsOk {K KF : Type} [LinearOrderedField K] (s : OCState K KF) :
    Prop :=
  (s.trackers.map KalmanBoxTracker.id).Nodup
  ∧ ∀ tr ∈ s.trackers, tr.id < s.next_id

/-- Shape of the track-creation loop: existing trackers are kept in front,
freshly created trackers carry ids in `[nid, result.2)`, distinctness and
the id bound are preserved, and the allocator never decreases. -/
theorem createTracks_shape {K KF : Type} [LinearOrderedField K]
    (kfI : Obs4 K → KF) (cfg : OCConfig K) (ds : List (Detection K)) :
    ∀ (idxs : List ℕ) (trs : List (KalmanBoxTracker K KF)) (nid : ℕ),
      (∀ tr ∈ trs, tr.id < nid) → (trs.map KalmanBoxTracker.id).Nodup →
      (∀ tr ∈ (createTracks kfI cfg ds idxs trs nid).1,
          tr.id < (createTracks kfI cfg ds idxs trs nid).2)
      ∧ ((createTracks kfI cfg ds idxs trs nid).1.map
          KalmanBoxTracker.id).Nodup
      ∧ nid ≤ (createTracks kfI cfg ds idxs trs nid).2
      ∧ ∀ tr ∈ (createTracks kfI cfg ds idxs trs nid).1,
          tr ∈ trs ∨ nid ≤ tr.id := by
  intro idxs
  induction idxs with
  | nil =>
    intro trs nid h1 h2
    exact ⟨h1, h2, le_refl nid, fun tr htr => Or.inl htr⟩
  | cons i is ih =>
    intro trs nid h1 h2
    have hstep : createTracks kfI cfg ds (i :: is) trs nid =
        createTracks kfI cfg ds is
          (match ds.get? i with
           | some d => trs ++ [KalmanBoxTracker.new kfI d.bbox d.cls
               cfg.delta_t nid]
           | none => trs)
          (match ds.get? i with
           | some _ => nid + 1
           | none => nid) := by
      rcases hd : ds.get? i with _ | d <;>
        simp only [createTracks, List.foldl_cons, hd]
    rcases hd : ds.get? i with _ | d
    · rw [hstep]
      simp only [hd]
      exact ih trs nid h1 h2
    · rw [hstep]
      simp only [hd]
      have h1p : ∀ tr ∈ trs ++ [KalmanBoxTracker.new kfI d.bbox d.cls
          cfg.delta_t nid], tr.id < nid + 1 := by
        intro tr htr
        rcases List.mem_append.mp htr with h | h
        · exact Nat.lt_succ_of_lt (h1 tr h)
        · simp at h
          subst h
          exact Nat.lt_succ_self nid
      have h2p : ((trs ++ [KalmanBoxTracker.new kfI d.bbox d.cls
          cfg.delta_t nid]).map KalmanBoxTracker.id).Nodup := by
        rw [List.map_append, List.nodup_append]
        refine ⟨h2, List.nodup_singleton _, ?_⟩
        intro a ha hb
        simp only [List.map_cons, List.map_nil, List.mem_singleton] at hb
        rcases List.mem_map.mp ha with ⟨t0, ht0, rfl⟩
        exact Nat.ne_of_lt (h1 t0 ht0) hb
      obtain ⟨g1, g2, g3, g4⟩ := ih _ (nid + 1) h1p h2p
      refine ⟨g1, g2, le_trans (Nat.le_succ nid) g3, ?_⟩
      intro tr htr
      rcases g4 tr htr with h | h
      · rcases List.mem_append.mp h with h | h
        · exact Or.inl h
        · simp at h
          subst h
          exact Or.inr (le_refl nid)
      · exact Or.inr (le_trans (Nat.le_succ nid) h)

/-- Shape of the no-live-trackers creation loop (the swapped-argument call):
same id structure as `createTracks_shape`. -/
theorem createTracksSwapped_shape {K KF : Type} [LinearOrderedField K]
    (kfI : Obs4 K → KF) (cfg : OCConfig K) (ds : List (Detection K)) :
    ∀ (idxs : List ℕ) (trs : List (KalmanBoxTracker K KF)) (nid : ℕ),
      (∀ tr ∈ trs, tr.id < nid) → (trs.map KalmanBoxTracker.id).Nodup →
      (∀ tr ∈ (createTracksSwapped kfI cfg ds idxs trs nid).1,
          tr.id < (createTracksSwapped kfI cfg ds idxs trs nid).2)
      ∧ ((createTracksSwapped kfI cfg ds idxs trs nid).1.map
          KalmanBoxTracker.id).Nodup
      ∧ nid ≤ (createTracksSwapped kfI cfg ds idxs trs nid).2
      ∧ ∀ tr ∈ (createTracksSwapped kfI cfg ds idxs trs nid).1,
          tr ∈ trs ∨ nid ≤ tr.id := by
  intro idxs
  induction idxs with
  | nil =>
    intro trs nid h1 h2
    exact ⟨h1, h2, le_refl nid, fun tr htr => Or.inl htr⟩
  | cons i is ih =>
    intro trs nid h1 h2
    have hstep : createTracksSwapped kfI cfg ds (i :: is) trs nid =
        createTracksSwapped kfI cfg ds is
          (match ds.get? i with
           | some d => trs ++ [KalmanBoxTracker.new kfI d.bbox cfg.delta_t
               d.cls nid]
           | none => trs)
          (match ds.get? i with
           | some _ => nid + 1
           | none => nid) := by
      rcases hd : ds.get? i with _ | d <;>
        simp only [createTracksSwapped, List.foldl_cons, hd]
    rcases hd : ds.get? i with _ | d
    · rw [hstep]
      simp only [hd]
      exact ih trs nid h1 h2
    · rw [hstep]
      simp only [hd]
      have h1p : ∀ tr ∈ trs ++ [KalmanBoxTracker.new kfI d.bbox cfg.delta_t
          d.cls nid], tr.id < nid + 1 := by
        intro tr htr
        rcases List.mem_append.mp htr with h | h
        · exact Nat.lt_succ_of_lt (h1 tr h)
        · simp at h
          subst h
          exact Nat.lt_succ_self nid
      have h2p : ((trs ++ [KalmanBoxTracker.new kfI d.bbox cfg.delta_t
          d.cls nid]).map KalmanBoxTracker.id).Nodup := by
        rw [List.map_append, List.nodup_append]
        refine ⟨h2, List.nodup_singleton _, ?_⟩
        intro a ha hb
        simp only [List.map_cons, List.map_nil, List.mem_singleton] at hb
        rcases List.mem_map.mp ha with ⟨t0, ht0, rfl⟩
        exact Nat.ne_of_lt (h1 t0 ht0) hb
      obtain ⟨g1, g2, g3, g4⟩ := ih _ (nid + 1) h1p h2p
      refine ⟨g1, g2, le_trans (Nat.le_succ nid) g3, ?_⟩
      intro tr htr
      rcases g4 tr htr with h | h
      · rcases List.mem_append.mp h with h | h
        · exact Or.inl h
        · simp at h
          subst h
          exact Or.inr (le_refl nid)
      · exact Or.inr (le_trans (Nat.le_succ nid) h)

/-- Every tracker surviving the predict-and-cull prefix of `update` comes
from a pre-state tracker with the same id and passes the staleness
bound. -/
theorem cullPredict_mem {K KF : Type} [LinearOrderedField K] (kfP : KF → KF)
    (cfg : OCConfig K) (trs : List (KalmanBoxTracker K KF))
    (u : KalmanBoxTracker K KF)
    (hu : u ∈ cullStale cfg (predictAll kfP trs)) :
    u.time_since_update ≤ cfg.max_age
    ∧ ∃ t0 ∈ trs, u = t0.predict kfP := by
  have h1 := List.of_mem_filter hu
  have h2 := List.mem_of_mem_filter hu
  refine ⟨by simpa using h1, ?_⟩
  rcases List.mem_map.mp h2 with ⟨t0, ht0, rfl⟩
  exact ⟨t0, ht0, rfl⟩

/-- Predicting every tracker leaves the id list unchanged. -/
theorem predictAll_map_id {K KF : Type} [LinearOrderedField K]
    (kfP : KF → KF) (trs : List (KalmanBoxTracker K KF)) :
    (predictAll kfP trs).map KalmanBoxTracker.id =
      trs.map KalmanBoxTracker.id := by
  simp only [predictAll, List.map_map]
  exact List.map_congr_left (fun a _ => rfl)

/-- The culled-and-predicted id list is a sublist of the pre-state id
list. -/
theorem cullPredict_ids_sublist {K KF : Type} [LinearOrderedField K]
    (kfP : KF → KF) (cfg : OCConfig K)
    (trs : List (KalmanBoxTracker K KF)) :
    ((cullStale cfg (predictAll kfP trs)).map KalmanBoxTracker.id).Sublist
      (trs.map KalmanBoxTracker.id) := by
  rw [show trs.map KalmanBoxTracker.id =
    (predictAll kfP trs).map KalmanBoxTracker.id from
    (predictAll_map_id kfP trs).symm]
  exact (List.filter_sublist _).map _

/-- After one `update`, the state is still id-well-formed, the allocator
never decreased, and every live tracker either survived the
predict-and-cull prefix (same id) or is freshly created (id at least the
old allocator value). -/
theorem update_state_ids {K KF : Type} [LinearOrderedField K] [FloorRing K]
    (sqF acosF : K → K) (piK : K) (kfP : KF → KF) (kfU : KF → Obs4 K → KF)
    (kfI : Obs4 K → KF) (kfSt : KF → State7 K) (σ : CMatrix → List ℕ)
    (cfg : OCConfig K) (s : OCState K KF) (ds : List (Detection K))
    (hwf : TrackerIdsOk s) :
    TrackerIdsOk (OCSortUpdate sqF acosF piK kfP kfU kfI kfSt σ cfg s ds).1
    ∧ s.next_id ≤
        (OCSortUpdate sqF acosF piK kfP kfU kfI kfSt σ cfg s ds).1.next_id
    ∧ ∀ tr ∈ (OCSortUpdate sqF acosF piK kfP kfU kfI kfSt σ cfg s
          ds).1.trackers,
        tr.id ∈ (cullStale cfg (predictAll kfP s.trackers)).map
          KalmanBoxTracker.id
        ∨ s.next_id ≤ tr.id := by
  have hsub := cullPredict_ids_sublist kfP cfg s.trackers
  have hnodup : ((cullStale cfg (predictAll kfP s.trackers)).map
      KalmanBoxTracker.id).Nodup := hwf.1.sublist hsub
  have hbound : ∀ u ∈ cullStale cfg (predictAll kfP s.trackers),
      u.id < s.next_id := by
    intro u hu
    rcases (cullPredict_mem kfP cfg s.trackers u hu).2 with ⟨t0, ht0, rfl⟩
    exact hwf.2 t0 ht0
  have key : ∀ (ms : List (ℕ × ℕ)) (idxs : List ℕ),
      (∀ tr ∈ (createTracks kfI cfg ds idxs
          (applyMatches sqF kfP kfU ds ms
            (cullStale cfg (predictAll kfP s.trackers))) s.next_id).1,
        tr.id < (createTracks kfI cfg ds idxs
          (applyMatches sqF kfP kfU ds ms
            (cullStale cfg (predictAll kfP s.trackers))) s.next_id).2)
      ∧ ((createTracks kfI cfg ds idxs
          (applyMatches sqF kfP kfU ds ms
            (cullStale cfg (predictAll kfP s.trackers))) s.next_id).1.map
          KalmanBoxTracker.id).Nodup
      ∧ s.next_id ≤ (createTracks kfI cfg ds idxs
          (applyMatches sqF kfP kfU ds ms
            (cullStale cfg (predictAll kfP s.trackers))) s.next_id).2
      ∧ ∀ tr ∈ (createTracks kfI cfg ds idxs
          (applyMatches sqF kfP kfU ds ms
            (cullStale cfg (predictAll kfP s.trackers))) s.next_id).1,
          tr.id ∈ (cullStale cfg (predictAll kfP s.trackers)).map
            KalmanBoxTracker.id ∨ s.next_id ≤ tr.id := by
    intro ms idxs
    have hmapeq := applyMatches_map_id sqF kfP kfU ds ms
      (cullStale cfg (predictAll kfP s.trackers))
    have h1p : ∀ tr ∈ applyMatches sqF kfP kfU ds ms
        (cullStale cfg (predictAll kfP s.trackers)),
        tr.id < s.next_id := by
      intro tr htr
      have hin : tr.id ∈ (cullStale cfg (predictAll kfP s.trackers)).map
          KalmanBoxTracker.id := by
        rw [← hmapeq]
        exact List.mem_map.mpr ⟨tr, htr, rfl⟩
      rcases List.mem_map.mp hin with ⟨u, hu, he⟩
      rw [← he]
      exact hbound u hu
    have h2p : ((applyMatches sqF kfP kfU ds ms
        (cullStale cfg (predictAll kfP s.trackers))).map
          KalmanBoxTracker.id).Nodup := by
      rw [hmapeq]
      exact hnodup
    obtain ⟨g1, g2, g3, g4⟩ := createTracks_shape kfI cfg ds idxs _
      s.next_id h1p h2p
    refine ⟨g1, g2, g3, ?_⟩
    intro tr htr
    rcases g4 tr htr with h | h
    · refine Or.inl ?_
      rw [← hmapeq]
      exact List.mem_map.mpr ⟨tr, h, rfl⟩
    · exact Or.inr h
  simp only [OCSortUpdate]
  split
  · obtain ⟨g1, g2, g3, g4⟩ := createTracksSwapped_shape kfI cfg ds
      (partitionByScore cfg ds).1
      (cullStale cfg (predictAll kfP s.trackers)) s.next_id hbound hnodup
    refine ⟨⟨g2, g1⟩, g3, ?_⟩
    intro tr htr
    rcases g4 tr htr with h | h
    · exact Or.inl (List.mem_map.mpr ⟨tr, h, rfl⟩)
    · exact Or.inr h
  · split
    · refine ⟨⟨hnodup, hbound⟩, le_refl _, ?_⟩
      intro tr htr
      exact Or.inl (List.mem_map.mpr ⟨tr, htr, rfl⟩)
    · obtain ⟨g1, g2, g3, g4⟩ := key _ _
      exact ⟨⟨g2, g1⟩, g3, g4⟩

/-- A removed id is never resurrected: once an id is absent from a
well-formed state and below its allocator value, it stays absent through
any sequence of `update` calls. -/
theorem runFrames_no_resurrect {K KF : Type} [LinearOrderedField K]
    [FloorRing K] (sqF acosF : K → K) (piK : K) (kfP : KF → KF)
    (kfU : KF → Obs4 K → KF) (kfI : Obs4 K → KF) (kfSt : KF → State7 K)
    (σ : CMatrix → List ℕ) (cfg : OCConfig K) :
    ∀ (frames : List (List (Detection K))) (s : OCState K KF),
      TrackerIdsOk s → ∀ i, i < s.next_id →
      i ∉ s.trackers.map KalmanBoxTracker.id →
      i ∉ (runFrames sqF acosF piK kfP kfU kfI kfSt σ cfg s
        frames).trackers.map KalmanBoxTracker.id := by
  intro frames
  induction frames with
  | nil =>
    intro s hwf i hlt hni
    simpa [runFrames] using hni
  | cons ds fr ih =>
    intro s hwf i hlt hni
    have hstep : runFrames sqF acosF piK kfP kfU kfI kfSt σ cfg s
        (ds :: fr) = runFrames sqF acosF piK kfP kfU kfI kfSt σ cfg
        (OCSortUpdate sqF acosF piK kfP kfU kfI kfSt σ cfg s ds).1 fr := rfl
    rw [hstep]
    obtain ⟨hwf1, hmono, hmem⟩ := update_state_ids sqF acosF piK kfP kfU kfI
      kfSt σ cfg s ds hwf
    refine ih _ hwf1 i (lt_of_lt_of_le hlt hmono) ?_
    intro hin
    rcases List.mem_map.mp hin with ⟨tr, htr, he⟩
    rcases hmem tr htr with h | h
    · refine hni ?_
      rw [← he]
      exact (cullPredict_ids_sublist kfP cfg s.trackers).subset h
    · rw [he] at h
      exact absurd h (not_le.mpr hlt)

/-- A tracker entering `update` having already missed `max_age` frames
(so its post-predict `time_since_update` exceeds `max_age`) is culled: its
id is absent from the post-update state. -/
theorem stale_not_in_update {K KF : Type} [LinearOrderedField K]
    [FloorRing K] (sqF acosF : K → K) (piK : K) (kfP : KF → KF)
    (kfU : KF → Obs4 K → KF) (kfI : Obs4 K → KF) (kfSt : KF → State7 K)
    (σ : CMatrix → List ℕ) (cfg : OCConfig K) (s : OCState K KF)
    (ds : List (Detection K)) (hwf : TrackerIdsOk s)
    (tr : KalmanBoxTracker K KF) (htr : tr ∈ s.trackers)
    (hst : cfg.max_age ≤ tr.time_since_update) :
    tr.id ∉ (OCSortUpdate sqF acosF piK kfP kfU kfI kfSt σ cfg s
      ds).1.trackers.map KalmanBoxTracker.id := by
  intro hin
  rcases List.mem_map.mp hin with ⟨u, hu, he⟩
  rcases (update_state_ids sqF acosF piK kfP kfU kfI kfSt σ cfg s ds
    hwf).2.2 u hu with h | h
  · rw [he] at h
    rcases List.mem_map.mp h with ⟨v, hv, hev⟩
    obtain ⟨hvb, t0, ht0, rfl⟩ := cullPredict_mem kfP cfg s.trackers v hv
    have hid : t0.id = tr.id := hev
    have ht0tr : t0 = tr :=
      List.inj_on_of_nodup_map hwf.1 ht0 htr hid
    subst ht0tr
    have hts : (t0.predict kfP).time_since_update =
        t0.time_since_update + 1 := rfl
    omega
  · rw [he] at h
    exact absurd h (not_le.mpr (hwf.2 tr htr))

/-- Every id emitted by `get_trackers` belongs to a live tracker. -/
theorem getTrackers_id_mem {K KF : Type} [LinearOrderedField K]
    (sqF : K → K) (kfSt : KF → State7 K) (cfg : OCConfig K)
    (s : OCState K KF) (i : ℕ)
    (h : i ∈ (getTrackers sqF kfSt cfg s).map Track.id) :
    i ∈ s.trackers.map KalmanBoxTracker.id := by
  rcases List.mem_map.mp h with ⟨t, ht, he⟩
  rcases List.mem_map.mp ht with ⟨tr, htr, rfl⟩
  exact List.mem_map.mpr ⟨tr, List.mem_of_mem_filter htr, he⟩

/-- C6: at the start of every `update`, right after predicting all tracks
and before any association, every track whose `time_since_update` exceeds
`max_age` is removed (the survivors of the predict-and-cull prefix all
satisfy the bound); consequently a track entering `update` having already
missed `max_age` consecutive frames (post-predict `time_since_update` then
exceeds `max_age`) is absent — by id — from the state after this update,
from the state after every subsequent update, and from the output of every
subsequent `get_trackers` (and hence `update`) call. -/
theorem c6_stale_track_removed_forever {K KF : Type} [LinearOrderedField K]
    [FloorRing K] (sqF acosF : K → K) (piK : K) (kfP : KF → KF)
    (kfU : KF → Obs4 K → KF) (kfI : Obs4 K → KF) (kfSt : KF → State7 K)
    (σ : CMatrix → List ℕ) (cfg : OCConfig K) (s : OCState K KF)
    (hwf : TrackerIdsOk s) (tr : KalmanBoxTracker K KF)
    (htr : tr ∈ s.trackers) (hst : cfg.max_age ≤ tr.time_since_update) :
    (∀ u ∈ cullStale cfg (predictAll kfP s.trackers),
        u.time_since_update ≤ cfg.max_age)
    ∧ ∀ (ds : List (Detection K)) (frames : List (List (Detection K))),
        tr.id ∉ (runFrames sqF acosF piK kfP kfU kfI kfSt σ cfg
            (OCSortUpdate sqF acosF piK kfP kfU kfI kfSt σ cfg s ds).1
            frames).trackers.map KalmanBoxTracker.id
        ∧ tr.id ∉ (getTrackers sqF kfSt cfg
            (runFrames sqF acosF piK kfP kfU kfI kfSt σ cfg
              (OCSortUpdate sqF acosF piK kfP kfU kfI kfSt σ cfg s ds).1
              frames)).map Track.id := by
  constructor
  · intro u hu
    exact (cullPredict_mem kfP cfg s.trackers u hu).1
  · intro ds frames
    have h1 := stale_not_in_update sqF acosF piK kfP kfU kfI kfSt σ cfg s ds
      hwf tr htr hst
    obtain ⟨hwf1, hmono, _⟩ := update_state_ids sqF acosF piK kfP kfU kfI
      kfSt σ cfg s ds hwf
    have h2 := runFrames_no_resurrect sqF acosF piK kfP kfU kfI kfSt σ cfg
      frames _ hwf1 tr.id (lt_of_lt_of_le (hwf.2 tr htr) hmono) h1
    exact ⟨h2, fun hin => h2 (getTrackers_id_mem sqF kfSt cfg _ tr.id hin)⟩

/-- Witness for C6: a single stale tracker under `max_age = 0`. -/
theorem c6_stale_track_removed_forever_witness :
    (TrackerIdsOk (⟨[mkTrk stBox01 1 0], 1⟩ : OCState ℚ (State7 ℚ))
      ∧ mkTrk stBox01 1 0 ∈ [mkTrk stBox01 1 0]
      ∧ (0 : ℕ) ≤ (mkTrk stBox01 1 0).time_since_update)
    ∧ ((∀ u ∈ cullStale (⟨0, 3 / 10, 3, 1 / 2, 1⟩ : OCConfig ℚ)
          (predictAll idPredict [mkTrk stBox01 1 0]),
        u.time_since_update ≤ (0 : ℕ))
      ∧ ∀ (ds : List (Detection ℚ)) (frames : List (List (Detection ℚ))),
        (mkTrk stBox01 1 0).id ∉ (runFrames qSqF qAcos 1 idPredict idUpdate
            obsInit id bruteMin (⟨0, 3 / 10, 3, 1 / 2, 1⟩ : OCConfig ℚ)
            (OCSortUpdate qSqF qAcos 1 idPredict idUpdate obsInit id
              bruteMin (⟨0, 3 / 10, 3, 1 / 2, 1⟩ : OCConfig ℚ)
              ⟨[mkTrk stBox01 1 0], 1⟩ ds).1
            frames).trackers.map KalmanBoxTracker.id
        ∧ (mkTrk stBox01 1 0).id ∉ (getTrackers qSqF id
            (⟨0, 3 / 10, 3, 1 / 2, 1⟩ : OCConfig ℚ)
            (runFrames qSqF qAcos 1 idPredict idUpdate obsInit id bruteMin
              (⟨0, 3 / 10, 3, 1 / 2, 1⟩ : OCConfig ℚ)
              (OCSortUpdate qSqF qAcos 1 idPredict idUpdate obsInit id
                bruteMin (⟨0, 3 / 10, 3, 1 / 2, 1⟩ : OCConfig ℚ)
                ⟨[mkTrk stBox01 1 0], 1⟩ ds).1
              frames)).map Track.id) := by
  have hwf : TrackerIdsOk (⟨[mkTrk stBox01 1 0], 1⟩ :
      OCState ℚ (State7 ℚ)) := by
    constructor
    · simp [mkTrk]
    · intro t ht
      simp only [List.mem_singleton] at ht
      subst ht
      simp [mkTrk]
  have htr : mkTrk stBox01 1 0 ∈ [mkTrk stBox01 1 0] :=
    List.mem_singleton.mpr rfl
  have hst : (0 : ℕ) ≤ (mkTrk stBox01 1 0).time_since_update :=
    Nat.zero_le _
  exact ⟨⟨hwf, htr, hst⟩,
    c6_stale_track_removed_forever qSqF qAcos 1 idPredict idUpdate obsInit
      id bruteMin (⟨0, 3 / 10, 3, 1 / 2, 1⟩ : OCConfig ℚ)
      ⟨[mkTrk stBox01 1 0], 1⟩ hwf (mkTrk stBox01 1 0) htr hst⟩

/-- C7: `get_trackers` is a pure projection (a function of the state alone,
mutating nothing): it returns the snapshots `{id, bbox projected from the
current filter state, class}` of exactly those live tracks with
`time_since_update < 1` and `hit_streak ≥ min_hit_streak`, in internal track
order; and the value returned by `update` is this same projection of the
post-update state (every return path of `update` ends in
`self.get_trackers()`). -/
theorem c7_get_trackers_projection {K KF : Type} [LinearOrderedField K]
    [FloorRing K] (sqF acosF : K → K) (piK : K) (kfP : KF → KF)
    (kfU : KF → Obs4 K → KF) (kfI : Obs4 K → KF) (kfSt : KF → State7 K)
    (σ : CMatrix → List ℕ) (cfg : OCConfig K) (s : OCState K KF)
    (ds : List (Detection K)) :
    getTrackers sqF kfSt cfg s =
      (s.trackers.filter (fun tr => decide (tr.time_since_update < 1) &&
        decide (cfg.min_hit_streak ≤ tr.hit_streak))).map
        (fun tr => ⟨tr.id, BBox.fromStateVector sqF (kfSt tr.kalman),
          tr.cls⟩)
    ∧ (OCSortUpdate sqF acosF piK kfP kfU kfI kfSt σ cfg s ds).2 =
        getTrackers sqF kfSt cfg
          (OCSortUpdate sqF acosF piK kfP kfU kfI kfSt σ cfg s ds).1 := by
  constructor
  · rfl
  · simp only [OCSortUpdate]
    split
    · rfl
    · split <;> rfl

/-- Specialization of `List.range'_concat` to step 1. -/
theorem range'_concat_one (s n : ℕ) :
    List.range' s (n + 1) = List.range' s n ++ [s + n] := by
  induction n generalizing s with
  | zero => simp [List.range']
  | succ m ih =>
    show s :: List.range' (s + 1) (m + 1) =
      (s :: List.range' (s + 1) m) ++ [s + (m + 1)]
    rw [ih (s + 1)]
    simp [Nat.add_comm, Nat.add_left_comm, Nat.add_assoc]

/-- A fold whose step applies `p` after `f` at every position strictly below
`m` agrees with the unconditional `p ∘ f` fold on `[1, …, j]` when `j < m`.
(`j ≤ m - 1 < m` covers every element.) -/
theorem foldl_cond_all_lt {KF : Type} (p : KF → KF) (f : ℕ → KF → KF)
    (m j : ℕ) (hj : j < m) (kf : KF) :
    (List.range' 1 j).foldl
        (fun a t => let a1 := f t a; if t < m then p a1 else a1) kf =
      (List.range' 1 j).foldl (fun a t => p (f t a)) kf := by
  refine List.foldl_ext _ _ kf ?_
  intro a t ht
  have hb := List.mem_range'_1.mp ht
  simp only [if_pos (show t < m by omega)]

/-- Peeling the last step of the conditional fold: on `[1, …, n+1]` with the
predict-guard `t < n+1`, the fold is the unconditional `p ∘ f` fold on
`[1, …, n]` followed by a bare `f (n+1)` (no trailing `p`). -/
theorem foldl_cond_peel {KF : Type} (p : KF → KF) (f : ℕ → KF → KF) (n : ℕ)
    (kf : KF) :
    (List.range' 1 (n + 1)).foldl
        (fun a t => let a1 := f t a; if t < n + 1 then p a1 else a1) kf =
      f (n + 1) ((List.range' 1 n).foldl (fun a t => p (f t a)) kf) := by
  rw [range'_concat_one, List.foldl_append]
  rw [foldl_cond_all_lt p f (n + 1) n (Nat.lt_succ_self n)]
  simp [Nat.add_comm]

/-- Peeling the last step of the spec-side fold (predict before each
sub-update except the first): on `[2, …, n+1]` starting from `f 1 kf`, the
result is `f (n+1)` of the unconditional `p ∘ f` fold on `[1, …, n]`. -/
theorem foldl_spec_peel {KF : Type} (p : KF → KF) (f : ℕ → KF → KF) (n : ℕ)
    (kf : KF) :
    (List.range' 2 n).foldl (fun a t => f t (p a)) (f 1 kf) =
      f (n + 1) ((List.range' 1 n).foldl (fun a t => p (f t a)) kf) := by
  induction n with
  | zero => simp
  | succ m ih =>
    rw [range'_concat_one 2 m, List.foldl_append, ih,
      range'_concat_one 1 m, List.foldl_append]
    simp [Nat.add_comm, Nat.add_left_comm]

/-- The loop of `update_kalman_filter` (update, then predict while not at
the last step) equals the claim's alternation (predict before every
sub-update except the first, none after the last). -/
theorem foldl_cond_eq_spec {KF : Type} (p : KF → KF) (f : ℕ → KF → KF)
    (k : ℕ) (kf : KF) :
    (List.range' 1 k).foldl
        (fun a t => let a1 := f t a; if t < k then p a1 else a1) kf =
      (if k = 0 then kf
       else (List.range' 2 (k - 1)).foldl (fun a t => f t (p a)) (f 1 kf)) := by
  cases k with
  | zero => simp
  | succ n =>
    rw [if_neg (Nat.succ_ne_zero n), Nat.succ_sub_one, foldl_cond_peel,
      foldl_spec_peel]

/-- The claim's re-anchoring sequence, written from its words: `k`
sub-updates, the `t`-th fed the interpolated observation at fraction `t/k`,
with a filter predict between consecutive sub-updates (before every
sub-update except the first) and none after the last. -/
def specReanchor {K KF : Type} [LinearOrderedField K] (kfP : KF → KF)
    (kfU : KF → Obs4 K → KF) (last z : Obs4 K) (k : ℕ) (kf : KF) : KF :=
  if k = 0 then kf
  else
    (List.range' 2 (k - 1)).foldl
      (fun a t => kfU (kfP a) (interpObs last z k t))
      (kfU kf (interpObs last z k 1))

/-- C8: `update(box)` runs exactly `k = age - (last ring entry).time_step`
Kalman sub-updates, the `t`-th feeding the observation linearly interpolated
between the last stored observation and the new box at fraction `t/k`,
predicting between consecutive sub-updates but not after the last; then it
appends `(age, bbox)` to the ring (popping the front only at capacity),
resets `time_since_update` to 0 and increments `hit_streak`. -/
theorem c8_update_reanchors {K KF : Type} [LinearOrderedField K]
    (sqF : K → K) (kfP : KF → KF) (kfU : KF → Obs4 K → KF)
    (tr : KalmanBoxTracker K KF) (b : BBox K)
    (hne : tr.prev_observations ≠ [])
    (hts : tr.getLastObservation.time_step ≤ tr.age) :
    (tr.update sqF kfP kfU b).kalman =
      specReanchor kfP kfU tr.getLastObservation.bbox.toObservationVector
        b.toObservationVector (tr.age - tr.getLastObservation.time_step)
        tr.kalman
    ∧ (tr.update sqF kfP kfU b).prev_observations =
        (if tr.delta_t ≤ tr.prev_observations.length then
          tr.prev_observations.drop 1
        else tr.prev_observations) ++ [⟨tr.age, b⟩]
    ∧ (tr.update sqF kfP kfU b).time_since_update = 0
    ∧ (tr.update sqF kfP kfU b).hit_streak = tr.hit_streak + 1 := by
  refine ⟨?_, ?_, rfl, rfl⟩
  · show tr.updateKalmanFilter kfP kfU b.toObservationVector = _
    rw [KalmanBoxTracker.updateKalmanFilter, specReanchor]
    exact foldl_cond_eq_spec kfP
      (fun t a => kfU a (interpObs
        tr.getLastObservation.bbox.toObservationVector b.toObservationVector
        (tr.age - tr.getLastObservation.time_step) t))
      (tr.age - tr.getLastObservation.time_step) tr.kalman
  · rfl

/-- Witness for C8 at a concrete tracker over the filter stand-in `ℕ` with
`predict = (3 * ·)` and `update = (2 * · + 1)`, age 2 and a single ring entry
at time step 0 (so `k = 2`). -/
theorem c8_update_reanchors_witness :
    (((⟨2, 0, 1, 1, 0, (0 : ℕ), [⟨0, ⟨0, 0, 0, 0⟩⟩], (0, 0), 1⟩ :
        KalmanBoxTracker ℚ ℕ).prev_observations ≠ [])
      ∧ (⟨2, 0, 1, 1, 0, (0 : ℕ), [⟨0, ⟨0, 0, 0, 0⟩⟩], (0, 0), 1⟩ :
        KalmanBoxTracker ℚ ℕ).getLastObservation.time_step ≤ 2)
    ∧ (((⟨2, 0, 1, 1, 0, (0 : ℕ), [⟨0, ⟨0, 0, 0, 0⟩⟩], (0, 0), 1⟩ :
          KalmanBoxTracker ℚ ℕ).update qSqF (fun n => 3 * n)
          (fun n _ => 2 * n + 1) ⟨0, 0, 1, 1⟩).kalman = 7
        ∧ ((⟨2, 0, 1, 1, 0, (0 : ℕ), [⟨0, ⟨0, 0, 0, 0⟩⟩], (0, 0), 1⟩ :
          KalmanBoxTracker ℚ ℕ).update qSqF (fun n => 3 * n)
          (fun n _ => 2 * n + 1) ⟨0, 0, 1, 1⟩).hit_streak = 2) := by
  have hne : ((⟨2, 0, 1, 1, 0, (0 : ℕ), [⟨0, ⟨0, 0, 0, 0⟩⟩], (0, 0), 1⟩ :
      KalmanBoxTracker ℚ ℕ).prev_observations ≠ []) := by
    simp [KalmanBoxTracker.prev_observations]
  have hts : (⟨2, 0, 1, 1, 0, (0 : ℕ), [⟨0, ⟨0, 0, 0, 0⟩⟩], (0, 0), 1⟩ :
      KalmanBoxTracker ℚ ℕ).getLastObservation.time_step ≤ 2 := by
    simp [KalmanBoxTracker.getLastObservation]
  have h := c8_update_reanchors qSqF (fun n => 3 * n) (fun n _ => 2 * n + 1)
    (⟨2, 0, 1, 1, 0, (0 : ℕ), [⟨0, ⟨0, 0, 0, 0⟩⟩], (0, 0), 1⟩ :
      KalmanBoxTracker ℚ ℕ) ⟨0, 0, 1, 1⟩ hne hts
  refine ⟨⟨hne, hts⟩, ?_, h.2.2.2⟩
  rw [h.1]
  simp [specReanchor, KalmanBoxTracker.getLastObservation, List.range']

/-- Tracker states reachable by the tracker's own API: born by
`KalmanBoxTracker::new` with ring lag `dt`, then any interleaving of
`predict` and `update` calls. -/
inductive TrReach {K KF : Type} [LinearOrderedField K] (sqF : K → K)
    (kfP : KF → KF) (kfU : KF → Obs4 K → KF) (kfI : Obs4 K → KF) (dt : ℕ) :
    KalmanBoxTracker K KF → Prop where
  | birth (bbox : BBox K) (cls id : ℕ) :
      TrReach sqF kfP kfU kfI dt (KalmanBoxTracker.new kfI bbox cls dt id)
  | predictStep {tr : KalmanBoxTracker K KF} :
      TrReach sqF kfP kfU kfI dt tr →
      TrReach sqF kfP kfU kfI dt (tr.predict kfP)
  | updateStep {tr : KalmanBoxTracker K KF} (b : BBox K) :
      TrReach sqF kfP kfU kfI dt tr →
      TrReach sqF kfP kfU kfI dt (tr.update sqF kfP kfU b)

/-- Invariant of reachable tracker states: the ring lag equals `dt`, the
ring is never empty, holds at most `dt` entries, all its time steps are at
most the tracker's age, and they are non-decreasing front to back. -/
theorem trReach_invariant {K KF : Type} [LinearOrderedField K]
    {sqF : K → K} {kfP : KF → KF} {kfU : KF → Obs4 K → KF}
    {kfI : Obs4 K → KF} {dt : ℕ} (hdt : 1 ≤ dt)
    {tr : KalmanBoxTracker K KF} (h : TrReach sqF kfP kfU kfI dt tr) :
    tr.delta_t = dt
    ∧ tr.prev_observations ≠ []
    ∧ tr.prev_observations.length ≤ dt
    ∧ (∀ o ∈ tr.prev_observations, o.time_step ≤ tr.age)
    ∧ List.Chain' (fun a b => a.time_step ≤ b.time_step)
        tr.prev_observations := by
  induction h with
  | birth bbox cls id =>
    refine ⟨rfl, by simp [KalmanBoxTracker.new], ?_, ?_, ?_⟩
    · simpa [KalmanBoxTracker.new] using hdt
    · intro o ho
      simp only [KalmanBoxTracker.new, List.mem_singleton] at ho
      subst ho
      exact Nat.le_refl 0
    · exact List.chain'_singleton _
  | predictStep hr ih =>
    obtain ⟨i1, i2, i3, i4, i5⟩ := ih
    refine ⟨i1, i2, i3, ?_, i5⟩
    intro o ho
    exact le_trans (i4 o ho) (Nat.le_succ _)
  | updateStep b hr ih =>
    obtain ⟨i1, i2, i3, i4, i5⟩ := ih
    rename_i tr0
    have hlen1 : 1 ≤ tr0.prev_observations.length :=
      List.length_pos.mpr i2
    have hring : (tr0.update sqF kfP kfU b).prev_observations =
        (if tr0.prev_observations.length ≥ tr0.delta_t then
          tr0.prev_observations.drop 1
        else tr0.prev_observations) ++ [⟨tr0.age, b⟩] := rfl
    have hpre_sub : (if tr0.prev_observations.length ≥ tr0.delta_t then
        tr0.prev_observations.drop 1
      else tr0.prev_observations) ⊆ tr0.prev_observations := by
      split
      · exact List.drop_subset 1 _
      · exact fun a ha => ha
    have hpre_chain : List.Chain' (fun a b => a.time_step ≤ b.time_step)
        (if tr0.prev_observations.length ≥ tr0.delta_t then
          tr0.prev_observations.drop 1
        else tr0.prev_observations) := by
      split
      · rw [List.drop_one]
        exact i5.tail
      · exact i5
    refine ⟨i1, ?_, ?_, ?_, ?_⟩
    · rw [hring]
      simp
    · rw [hring, List.length_append]
      rw [i1] at *
      split <;> simp only [List.length_drop, List.length_singleton] <;>
        omega
    · intro o ho
      rw [hring] at ho
      rcases List.mem_append.mp ho with hm | hm
      · have : o ∈ tr0.prev_observations := hpre_sub hm
        exact i4 o this
      · simp only [List.mem_singleton] at hm
        subst hm
        exact Nat.le_refl _
    · rw [hring, List.chain'_append]
      refine ⟨hpre_chain, List.chain'_singleton _, ?_⟩
      intro x hx y hy
      simp only [List.head?_cons, Option.mem_def, Option.some.injEq] at hy
      subst hy
      have hxm : x ∈ tr0.prev_observations :=
        hpre_sub (List.mem_of_mem_getLast? hx)
      exact i4 x hxm

/-- C9: for every reachable live track (with the spec's positive `delta_t`),
the observation ring is never empty, holds at most `delta_t` entries, and
its time steps are monotonically non-decreasing from front to back;
moreover on the next `update` the ring stays within capacity and the
oldest entry is dropped exactly when the push would exceed capacity
(the length grows by one iff the ring was strictly below `delta_t`). -/
theorem c9_ring_invariants {K KF : Type} [LinearOrderedField K]
    (sqF : K → K) (kfP : KF → KF) (kfU : KF → Obs4 K → KF)
    (kfI : Obs4 K → KF) {dt : ℕ} (hdt : 1 ≤ dt)
    {tr : KalmanBoxTracker K KF} (h : TrReach sqF kfP kfU kfI dt tr) :
    tr.prev_observations ≠ []
    ∧ tr.prev_observations.length ≤ dt
    ∧ List.Chain' (fun a b => a.time_step ≤ b.time_step)
        tr.prev_observations
    ∧ ∀ b : BBox K,
        (tr.update sqF kfP kfU b).prev_observations.length ≤ dt
        ∧ ((tr.update sqF kfP kfU b).prev_observations.length =
            tr.prev_observations.length + 1 ↔
          tr.prev_observations.length < dt) := by
  obtain ⟨i1, i2, i3, i4, i5⟩ := trReach_invariant hdt h
  refine ⟨i2, i3, i5, ?_⟩
  intro b
  have hlen1 : 1 ≤ tr.prev_observations.length := List.length_pos.mpr i2
  have hring : (tr.update sqF kfP kfU b).prev_observations =
      (if tr.prev_observations.length ≥ tr.delta_t then
        tr.prev_observations.drop 1
      else tr.prev_observations) ++ [⟨tr.age, b⟩] := rfl
  rw [hring, List.length_append]
  constructor
  · split <;> simp only [List.length_drop, List.length_singleton] <;> omega
  · split <;> simp only [List.length_drop, List.length_singleton, true_iff] <;>
      omega

/-- Witness for C9 at a freshly born tracker with `delta_t = 3`. -/
theorem c9_ring_invariants_witness :
    ((1 : ℕ) ≤ 3 ∧ TrReach qSqF idPredict idUpdate obsInit 3
      (KalmanBoxTracker.new obsInit (⟨0, 0, 1, 1⟩ : BBox ℚ) 1 3 0))
    ∧ ((KalmanBoxTracker.new obsInit (⟨0, 0, 1, 1⟩ : BBox ℚ) 1 3 0 :
          KalmanBoxTracker ℚ (State7 ℚ)).prev_observations ≠ []
      ∧ (KalmanBoxTracker.new obsInit (⟨0, 0, 1, 1⟩ : BBox ℚ) 1 3 0 :
          KalmanBoxTracker ℚ (State7 ℚ)).prev_observations.length ≤ 3
      ∧ List.Chain' (fun a b => a.time_step ≤ b.time_step)
          (KalmanBoxTracker.new obsInit (⟨0, 0, 1, 1⟩ : BBox ℚ) 1 3 0 :
            KalmanBoxTracker ℚ (State7 ℚ)).prev_observations
      ∧ ∀ b : BBox ℚ,
          ((KalmanBoxTracker.new obsInit (⟨0, 0, 1, 1⟩ : BBox ℚ) 1 3 0 :
              KalmanBoxTracker ℚ (State7 ℚ)).update qSqF idPredict idUpdate
            b).prev_observations.length ≤ 3
          ∧ (((KalmanBoxTracker.new obsInit (⟨0, 0, 1, 1⟩ : BBox ℚ) 1 3 0 :
              KalmanBoxTracker ℚ (State7 ℚ)).update qSqF idPredict idUpdate
            b).prev_observations.length =
              (KalmanBoxTracker.new obsInit (⟨0, 0, 1, 1⟩ : BBox ℚ) 1 3 0 :
                KalmanBoxTracker ℚ (State7 ℚ)).prev_observations.length + 1
            ↔ (KalmanBoxTracker.new obsInit (⟨0, 0, 1, 1⟩ : BBox ℚ) 1 3 0 :
              KalmanBoxTracker ℚ (State7 ℚ)).prev_observations.length <
                3)) :=
  ⟨⟨by decide, TrReach.birth (⟨0, 0, 1, 1⟩ : BBox ℚ) 1 0⟩,
    c9_ring_invariants qSqF idPredict idUpdate obsInit (by decide)
      (TrReach.birth (⟨0, 0, 1, 1⟩ : BBox ℚ) 1 0)⟩

/-- `rustCastI64` of a non-positive value is non-positive. -/
theorem rustCastI64_nonpos {K : Type} [LinearOrderedField K] [FloorRing K]
    {x : K} (h : x ≤ 0) : rustCastI64 x ≤ 0 := by
  unfold rustCastI64
  have hin : (if 0 ≤ x then ⌊x⌋ else ⌈x⌉) ≤ 0 := by
    split
    · exact Int.floor_nonpos h
    · exact Int.ceil_le.mpr (by exact_mod_cast h)
  refine max_le (by norm_num) (le_trans (min_le_right _ _) hin)

/-- The momentum formula exactly as the claim words it: clamp the dot
product to `[-1, 1]`, take `acos`, and round `((θ - π)/π) · 0.2 · 10⁴` to
the nearest integer. -/
noncomputable def momentumSpecRound (inertia u : ℝ × ℝ) : ℤ :=
  round ((Real.arccos (max (-1) (min 1 (inertia.1 * u.1 + inertia.2 * u.2)))
    - Real.pi) / Real.pi * (1 / 5) * 10000)

/-- A real-coordinate tracker whose stored speed direction is the unit
vector at 60°, with a single ring observation centered at `(1, 0)`. -/
noncomputable def trC5 : KalmanBoxTracker ℝ Unit :=
  { age := 0, cls := 0, delta_t := 3, hit_streak := 1, id := 0, kalman := (),
    prev_observations := [⟨0, ⟨1 / 2, -(1 / 2), 3 / 2, 1 / 2⟩⟩],
    speed_direction := (1 / 2, Real.sqrt 3 / 2), time_since_update := 0 }

/-- A real-coordinate tracker with zero stored speed direction and a single
ring observation centered at the origin. -/
noncomputable def trC5z : KalmanBoxTracker ℝ Unit :=
  { age := 0, cls := 0, delta_t := 3, hit_streak := 1, id := 0, kalman := (),
    prev_observations := [⟨0, ⟨-(1 / 2), -(1 / 2), 1 / 2, 1 / 2⟩⟩],
    speed_direction := (0, 0), time_since_update := 0 }

/-- C5, counterexample: the momentum term is computed with Rust's `as i64`
(truncation toward zero), not with rounding to nearest.  With the stored
speed direction `(1/2, √3/2)` and a detection box whose unit direction from
the tracker's ring observation is `(-1, 0)`, the dot product is `-1/2`, so
`θ = acos(-1/2) = 2π/3` and `((θ - π)/π) · 0.2 · 10⁴ = -2000/3 ≈ -666.67`:
the code adds `-666` (truncation) where the claim's formula gives
`round(-2000/3) = -667`. -/
theorem c5_momentum_trunc_ne_round :
    speedCostTerm Real.sqrt Real.arccos Real.pi
        (⟨-(1 / 2), -(1 / 2), 1 / 2, 1 / 2⟩ : BBox ℝ) trC5 = -666
    ∧ momentumSpecRound trC5.speed_direction
        (BBox.speedDirection Real.sqrt
          (⟨-(1 / 2), -(1 / 2), 1 / 2, 1 / 2⟩ : BBox ℝ)
          trC5.getObservationDtAway) = -667
    ∧ (-666 : ℤ) ≠ -667 := by
  have hobs : trC5.getObservationDtAway =
      (⟨1 / 2, -(1 / 2), 3 / 2, 1 / 2⟩ : BBox ℝ) := by
    simp [KalmanBoxTracker.getObservationDtAway, minByFirst, trC5]
  have hu : BBox.speedDirection Real.sqrt
      (⟨-(1 / 2), -(1 / 2), 1 / 2, 1 / 2⟩ : BBox ℝ)
      (⟨1 / 2, -(1 / 2), 3 / 2, 1 / 2⟩ : BBox ℝ) = (-1, 0) := by
    norm_num [BBox.speedDirection, BBox.toObservationVector, max_def]
  have hdot : trC5.speed_direction.1 * (-1 : ℝ) +
      trC5.speed_direction.2 * 0 = -(1 / 2) := by
    simp [trC5]
  have hac : Real.arccos (-(1 / 2)) = 2 * Real.pi / 3 := by
    have h13 : Real.arccos (1 / 2) = Real.pi / 3 := by
      rw [show (1 / 2 : ℝ) = Real.cos (Real.pi / 3) from
        Real.cos_pi_div_three.symm]
      exact Real.arccos_cos (by positivity) (by linarith [Real.pi_pos])
    rw [Real.arccos_neg, h13]
    ring
  have hval : (2 * Real.pi / 3 - Real.pi) / Real.pi * (1 / 5) * 10000 =
      -(2000 / 3) := by
    have hπ : Real.pi ≠ 0 := Real.pi_ne_zero
    field_simp
    ring
  have hmk : trC5.speed_direction.1 * ((-1 : ℝ), (0 : ℝ)).1 +
      trC5.speed_direction.2 * ((-1 : ℝ), (0 : ℝ)).2 = -(1 / 2) := by
    simpa using hdot
  refine ⟨?_, ?_, by decide⟩
  · rw [speedCostTerm, hobs, hu, hmk]
    rw [if_pos (by rw [abs_le]; constructor <;> norm_num)]
    rw [hac, iouMultiplier, hval, rustCastI64]
    rw [if_neg (by norm_num)]
    have hc : ⌈(-(2000 / 3) : ℝ)⌉ = -666 := by
      rw [Int.ceil_eq_iff]
      constructor <;> norm_num
    rw [hc]
    norm_num [min_def, max_def]
  · rw [momentumSpecRound, hobs, hu, hmk]
    rw [show max (-1 : ℝ) (min 1 (-(1 / 2))) = -(1 / 2) by
      rw [min_def, max_def]; norm_num]
    rw [hac, hval, round_eq]
    rw [show (-(2000 / 3) : ℝ) + 1 / 2 = -(3997 / 6) by norm_num]
    have hf : ⌊(-(3997 / 6) : ℝ)⌋ = -667 := by
      rw [Int.floor_eq_iff]
      constructor <;> norm_num
    exact hf

/-- C5, amended: over the reals with the true `acos` and `π`, the momentum
term added to entry `(i, j)` equals the `f64 as i64` truncation toward zero
of `((θ - π)/π) · 0.2 · 10⁴`, where `θ = acos` of the (unclamped) dot
product between the track's stored speed direction and the unit direction
from its `delta_t`-steps-away observation to the detection box, whenever
that dot product lies in `[-1, 1]` (no clamping is performed by the code; a
dot product outside `[-1, 1]` makes the `f64` `acos` return NaN and the cast
then produces `0`); the added term is always ≤ 0. -/
theorem c5_momentum_trunc_nonpos {KF : Type} (b : BBox ℝ)
    (tr : KalmanBoxTracker ℝ KF) :
    speedCostTerm Real.sqrt Real.arccos Real.pi b tr ≤ 0
    ∧ (|tr.speed_direction.1 *
          (BBox.speedDirection Real.sqrt b tr.getObservationDtAway).1 +
        tr.speed_direction.2 *
          (BBox.speedDirection Real.sqrt b tr.getObservationDtAway).2| ≤ 1 →
      speedCostTerm Real.sqrt Real.arccos Real.pi b tr =
        rustCastI64 ((Real.arccos (tr.speed_direction.1 *
            (BBox.speedDirection Real.sqrt b tr.getObservationDtAway).1 +
          tr.speed_direction.2 *
            (BBox.speedDirection Real.sqrt b tr.getObservationDtAway).2)
          - Real.pi) / Real.pi * (1 / 5) * 10000)) := by
  constructor
  · rw [speedCostTerm]
    split
    · refine rustCastI64_nonpos ?_
      have h1 := Real.arccos_le_pi (tr.speed_direction.1 *
        (BBox.speedDirection Real.sqrt b tr.getObservationDtAway).1 +
        tr.speed_direction.2 *
        (BBox.speedDirection Real.sqrt b tr.getObservationDtAway).2)
      have h2 : (Real.arccos (tr.speed_direction.1 *
          (BBox.speedDirection Real.sqrt b tr.getObservationDtAway).1 +
          tr.speed_direction.2 *
          (BBox.speedDirection Real.sqrt b tr.getObservationDtAway).2)
          - Real.pi) / Real.pi ≤ 0 :=
        div_nonpos_of_nonpos_of_nonneg (by linarith) Real.pi_pos.le
      have h3 : (0 : ℝ) < iouMultiplier := by norm_num [iouMultiplier]
      nlinarith
    · exact le_refl 0
  · intro hdot
    rw [speedCostTerm, if_pos hdot, iouMultiplier]

/-- Witness for the amended C5 statement: a box and tracker whose dot
product is `0` (zero stored inertia). -/
theorem c5_momentum_trunc_nonpos_witness :
    (|trC5z.speed_direction.1 *
        (BBox.speedDirection Real.sqrt
          (⟨-(1 / 2), -(1 / 2), 1 / 2, 1 / 2⟩ : BBox ℝ)
          trC5z.getObservationDtAway).1 +
      trC5z.speed_direction.2 *
        (BBox.speedDirection Real.sqrt
          (⟨-(1 / 2), -(1 / 2), 1 / 2, 1 / 2⟩ : BBox ℝ)
          trC5z.getObservationDtAway).2| ≤ 1)
    ∧ speedCostTerm Real.sqrt Real.arccos Real.pi
        (⟨-(1 / 2), -(1 / 2), 1 / 2, 1 / 2⟩ : BBox ℝ) trC5z ≤ 0 := by
  have hd : |trC5z.speed_direction.1 *
      (BBox.speedDirection Real.sqrt
        (⟨-(1 / 2), -(1 / 2), 1 / 2, 1 / 2⟩ : BBox ℝ)
        trC5z.getObservationDtAway).1 +
    trC5z.speed_direction.2 *
      (BBox.speedDirection Real.sqrt
        (⟨-(1 / 2), -(1 / 2), 1 / 2, 1 / 2⟩ : BBox ℝ)
        trC5z.getObservationDtAway).2| ≤ 1 := by
    simp [trC5z]
  exact ⟨hd, (c5_momentum_trunc_nonpos
    (⟨-(1 / 2), -(1 / 2), 1 / 2, 1 / 2⟩ : BBox ℝ) trC5z).1⟩

/-- C3, counterexample: the primary mode has no empty-input shortcut.
Called with an empty detection index list and the tracker index list `[1]`
(over two live trackers), `associate_detections_to_trackers` builds the 0×1
matrix, invokes the solver on it, and returns the unmatched tracker list
`[0]` — the raw column position — instead of the given tracker index list
`[1]` that the claim requires. -/
theorem c3_primary_no_shortcut :
    associateDetectionsToTrackers qSqF qAcos 1 (id : State7 ℚ → State7 ℚ)
        bruteMin [] [] [mkTrk stBox01 1 0, mkTrk stFar 1 1] [1] (3 / 10) =
      ([], [], [0])
    ∧ ([0] : List ℕ) ≠ [1] := by
  refine ⟨?_, by decide⟩
  simp [associateDetectionsToTrackers, getBBoxes, calcIouCostMatrix,
    addSpeedCostMatrix, addClassCostMatrix, calculateMatching, bruteMin,
    injChoices, CMatrix.transposed]
  decide

/-- C3, amended: in the byte and recovery modes, if either index list is
empty the mode returns `([], all detection indices, all tracker indices)`
without invoking the solver (the result is the same for every solver
function).  The primary mode has no such shortcut: it always invokes the
solver, and — for any solver returning the empty assignment on a matrix with
no rows, as every valid solver does — an empty detection index list yields
`([], [], [0, …, n-1])` and an empty tracker index list yields
`([], [0, …, m-1], [])`: the non-empty side's unmatched list holds column
positions `0..len-1` rather than the given index lists. -/
theorem c3_empty_input_amended {K KF : Type} [LinearOrderedField K]
    [FloorRing K] (sqF acosF : K → K) (piK : K) (kfSt : KF → State7 K)
    (σ : CMatrix → List ℕ) (hσ : ∀ m : CMatrix, m.rows = 0 → σ m = [])
    (dets : List (Detection K)) (dIdx : List ℕ)
    (trks : List (KalmanBoxTracker K KF)) (tIdx : List ℕ) (thr : K) :
    (dIdx = [] ∨ tIdx = [] →
      (∀ σ2 : CMatrix → List ℕ,
          byteAssociate sqF kfSt σ2 dets dIdx trks tIdx thr =
            ([], dIdx, tIdx))
      ∧ (∀ σ2 : CMatrix → List ℕ,
          observationCentricRecovery σ2 dets dIdx trks tIdx thr =
            ([], dIdx, tIdx)))
    ∧ associateDetectionsToTrackers sqF acosF piK kfSt σ dets [] trks tIdx
        thr = ([], [], List.range tIdx.length)
    ∧ associateDetectionsToTrackers sqF acosF piK kfSt σ dets dIdx trks []
        thr = ([], List.range dIdx.length, []) := by
  refine ⟨fun h => ?_, ?_, ?_⟩
  · have he : dIdx.isEmpty = true ∨ tIdx.isEmpty = true := by
      rcases h with h | h <;> simp [h]
    exact ⟨fun σ2 => by simp only [byteAssociate]; rw [if_pos he],
      fun σ2 => by simp only [observationCentricRecovery]; rw [if_pos he]⟩
  · have hav : σ (CMatrix.mk 0 tIdx.length
        ((addClassCostMatrix dets [] trks tIdx
          (addSpeedCostMatrix sqF acosF piK [] trks
            (calcIouCostMatrix ([] : List (BBox K))
              (tIdx.map (fun ti => ((trks.get? ti).map
                (fun tr => tr.getBBox sqF kfSt)).getD zeroBBox))))).entry)) =
        [] := by
      exact hσ _ rfl
    simp [associateDetectionsToTrackers, getBBoxes, calcIouCostMatrix,
      addSpeedCostMatrix, addClassCostMatrix, calculateMatching,
      CMatrix.transposed] at hav ⊢
    rw [hav]
    simp [List.filter_eq_self]
  · rcases List.eq_nil_or_concat' dIdx with hd | ⟨l, a, hd⟩
    · subst hd
      have hav : σ (CMatrix.mk 0 0
          ((addClassCostMatrix dets [] trks []
            (addSpeedCostMatrix sqF acosF piK [] trks
              (calcIouCostMatrix ([] : List (BBox K)) []))).entry)) = [] :=
        hσ _ rfl
      simp [associateDetectionsToTrackers, getBBoxes, calcIouCostMatrix,
        addSpeedCostMatrix, addClassCostMatrix, calculateMatching,
        CMatrix.transposed] at hav ⊢
      rw [hav]
      simp
    · have hrows : 0 < dIdx.length := by
        subst hd
        simp
      have hav : σ ((CMatrix.mk dIdx.length 0
          ((addClassCostMatrix dets dIdx trks []
            (addSpeedCostMatrix sqF acosF piK
              (dIdx.map (fun di =>
                ((dets.get? di).map Detection.bbox).getD zeroBBox)) trks
              (calcIouCostMatrix
                (dIdx.map (fun di =>
                  ((dets.get? di).map Detection.bbox).getD zeroBBox))
                ([] : List (BBox K))))).entry)).transposed) = [] :=
        hσ _ rfl
      simp [associateDetectionsToTrackers, getBBoxes, calcIouCostMatrix,
        addSpeedCostMatrix, addClassCostMatrix, calculateMatching,
      CMatrix.transposed, hrows] at hav ⊢
      rw [hav]
      simp [List.filter_eq_self]

/-- Witness for the amended C3 statement at concrete inputs. -/
theorem c3_empty_input_amended_witness :
    ((∀ m : CMatrix, m.rows = 0 → bruteMin m = []) ∧
      (([] : List ℕ) = [] ∨ ([0] : List ℕ) = []))
    ∧ ((([] : List ℕ) = [] ∨ ([0] : List ℕ) = [] →
        (∀ σ2 : CMatrix → List ℕ,
            byteAssociate qSqF (id : State7 ℚ → State7 ℚ) σ2 [] []
              [mkTrk stBox01 1 0] [0] (3 / 10) = ([], [], [0]))
        ∧ (∀ σ2 : CMatrix → List ℕ,
            observationCentricRecovery σ2 ([] : List (Detection ℚ)) []
              [mkTrk stBox01 1 0] [0] (3 / 10) = ([], [], [0])))
      ∧ associateDetectionsToTrackers qSqF qAcos 1
          (id : State7 ℚ → State7 ℚ) bruteMin [] [] [mkTrk stBox01 1 0] [0]
          (3 / 10) = ([], [], List.range ([0] : List ℕ).length)
      ∧ associateDetectionsToTrackers qSqF qAcos 1
          (id : State7 ℚ → State7 ℚ) bruteMin [] [] [mkTrk stBox01 1 0] []
          (3 / 10) = ([], List.range ([] : List ℕ).length, [])) :=
  ⟨⟨bruteMin_of_rows_zero, Or.inl rfl⟩,
    c3_empty_input_amended qSqF qAcos 1 id bruteMin bruteMin_of_rows_zero
      [] [] [mkTrk stBox01 1 0] [0] (3 / 10)⟩

end OCS
